import Mathlib

/-!
Verification development for the dawn-stdlib protocol core (src/src/lib.rs).

Rust data is shallowly embedded: byte vectors (Vec<u8>, &[u8]) become
`Bytes := List Nat` with each entry a byte value, Rust strings become
`Str := List Char`, and fallible functions return `Except Str`.

The crypto provider (the external dawn-crypto crate) and the serde_json /
hex / base64 codecs are collaborators outside src/; they are modelled from
the specification (sections 4.1, 4.3, 4.4, 6 and 9 of the design text), as
idealized executable functions, each marked in its doc comment.  Everything
in lib.rs itself is translated from the source.
-/

set_option maxRecDepth 40000

abbrev Bytes : Type := List Nat

abbrev Str : Type := List Char

/-- Coercion from a Lean string literal to the `List Char` model of Rust strings. -/
def str (s : String) : Str :=
  s.data

/-- Little-endian base-256 digits of a number, padded or truncated to exactly `k` bytes. -/
def toBytesN : Nat → Nat → Bytes
  | 0, _ => []
  | k + 1, x => x % 256 :: toBytesN k (x / 256)

/-- Number denoted by a little-endian byte list. -/
def fromBytes : Bytes → Nat
  | [] => 0
  | b :: bs => b + 256 * fromBytes bs

/-- Length-prefix a byte list (used to build injective concatenations). -/
def lenPre (l : Bytes) : Bytes :=
  l.length :: l

/-- Predicate: every entry of the list is a genuine byte value. -/
def allBytes (l : Bytes) : Prop :=
  ∀ b ∈ l, b < 256

instance (l : Bytes) : Decidable (allBytes l) :=
  inferInstanceAs (Decidable (∀ b ∈ l, b < 256))

/-- Modelled from the spec: lowercase hex digit characters, as produced by the hex crate. -/
def hexDigit (n : Nat) : Char :=
  if n < 10 then Char.ofNat (48 + n) else Char.ofNat (87 + n)

/-- Modelled from the spec: hex::encode, lowercase hex, two characters per byte. -/
def hex_encode : Bytes → Str
  | [] => []
  | b :: bs => hexDigit (b / 16 % 16) :: hexDigit (b % 16) :: hex_encode bs

/-- Modelled from the spec: value of one hex digit character (hex::decode accepts both cases). -/
def hexVal (c : Char) : Option Nat :=
  if '0' ≤ c ∧ c ≤ '9' then some (c.toNat - 48)
  else if 'a' ≤ c ∧ c ≤ 'f' then some (c.toNat - 87)
  else if 'A' ≤ c ∧ c ≤ 'F' then some (c.toNat - 55)
  else none

/-- Modelled from the spec: hex::decode, requiring an even number of valid hex digits. -/
def hex_decode : Str → Option Bytes
  | [] => some []
  | [_] => none
  | c1 :: c2 :: rest =>
    match hexVal c1, hexVal c2, hex_decode rest with
    | some h, some l, some tl => some ((16 * h + l) :: tl)
    | _, _, _ => none

/-- Modelled from the spec: the standard base64 alphabet character for a sextet. -/
def b64Char (n : Nat) : Char :=
  if n < 26 then Char.ofNat (65 + n)
  else if n < 52 then Char.ofNat (97 + (n - 26))
  else if n < 62 then Char.ofNat (48 + (n - 52))
  else if n = 62 then '+'
  else '/'

/-- Modelled from the spec: base64 STANDARD_NO_PAD encoding (unpadded standard alphabet). -/
def b64_encode : Bytes → Str
  | [] => []
  | [b1] => [b64Char (b1 / 4), b64Char (b1 % 4 * 16)]
  | [b1, b2] => [b64Char (b1 / 4), b64Char (b1 % 4 * 16 + b2 / 16), b64Char (b2 % 16 * 4)]
  | b1 :: b2 :: b3 :: rest =>
    b64Char (b1 / 4) :: b64Char (b1 % 4 * 16 + b2 / 16) ::
      b64Char (b2 % 16 * 4 + b3 / 64) :: b64Char (b3 % 64) :: b64_encode rest

/-- Modelled from the spec: value of one base64 alphabet character. -/
def b64Val (c : Char) : Option Nat :=
  if 'A' ≤ c ∧ c ≤ 'Z' then some (c.toNat - 65)
  else if 'a' ≤ c ∧ c ≤ 'z' then some (c.toNat - 71)
  else if '0' ≤ c ∧ c ≤ '9' then some (c.toNat + 4)
  else if c = '+' then some 62
  else if c = '/' then some 63
  else none

/-- Modelled from the spec: base64 STANDARD_NO_PAD decoding, strict about trailing bits. -/
def b64_decode : Str → Option Bytes
  | [] => some []
  | [_] => none
  | [c1, c2] =>
    match b64Val c1, b64Val c2 with
    | some v1, some v2 => if v2 % 16 = 0 then some [v1 * 4 + v2 / 16] else none
    | _, _ => none
  | [c1, c2, c3] =>
    match b64Val c1, b64Val c2, b64Val c3 with
    | some v1, some v2, some v3 =>
      if v3 % 4 = 0 then some [v1 * 4 + v2 / 16, v2 % 16 * 16 + v3 / 4] else none
    | _, _, _ => none
  | c1 :: c2 :: c3 :: c4 :: rest =>
    match b64Val c1, b64Val c2, b64Val c3, b64Val c4, b64_decode rest with
    | some v1, some v2, some v3, some v4, some tl =>
      some ((v1 * 4 + v2 / 16) :: (v2 % 16 * 16 + v3 / 4) :: (v3 % 4 * 64 + v4) :: tl)
    | _, _, _, _, _ => none

/-- Rust String::split(char '\n') on the char-list model of strings. -/
def splitNl : Str → List Str
  | [] => [[]]
  | c :: rest =>
    if c = '\n' then [] :: splitNl rest
    else
      match splitNl rest with
      | [] => [[c]]
      | h :: t => (c :: h) :: t

/-- Strip one trailing carriage return, as Rust str::lines does at each line end. -/
def stripCr (s : Str) : Str :=
  if s.getLast? = some '\r' then s.dropLast else s

/-- Rust str::lines: split at newlines, a final line ending is optional, CR before LF dropped. -/
def rustLines (s : Str) : List Str :=
  let parts := splitNl s
  if parts.getLast? = some [] then (parts.dropLast).map stripCr
  else (parts.dropLast).map stripCr ++ [(parts.getLast?.getD [])]

/-- Rust str::parse::<u8>: optional leading plus sign, decimal digits, value below 256. -/
def parseU8 (s : Str) : Option Nat :=
  let t : Str := match s with
    | '+' :: rest => rest
    | _ => s
  if t ≠ [] ∧ t.all (fun c => decide ('0' ≤ c ∧ c ≤ '9')) then
    let v := t.foldl (fun a c => a * 10 + (c.toNat - 48)) 0
    if v < 256 then some v else none
  else none

/-- Modelled from the spec: the UTF-8 byte sequence of a Rust string, abstracted to one
entry per character (the codepoint value); String::from_utf8 is modelled accordingly. -/
def strBytes (s : Str) : Bytes :=
  s.map Char.toNat

/-- Validity of one modelled byte as a character codepoint (Unicode scalar value). -/
def validCode (n : Nat) : Prop :=
  n < 55296 ∨ (57344 ≤ n ∧ n < 1114112)

instance (n : Nat) : Decidable (validCode n) :=
  inferInstanceAs (Decidable (_ ∨ _))

/-- Modelled from the spec: String::from_utf8 on the codepoint-sequence model of UTF-8. -/
def bytesStr (l : Bytes) : Option Str :=
  if ∀ b ∈ l, validCode b then some (l.map Char.ofNat) else none

/-- Modelled from the spec (4.1): X25519 group order stand-in; key material lives mod 2^256. -/
def KEY_N : Nat := 256 ^ 32

/-- Modelled from the spec (4.1): the Diffie-Hellman base point scalar. -/
def CURVE_G : Nat := 9

/-- Modelled from the spec (4.1): ML-KEM-1024 ciphertext length in bytes. -/
def KYBER_CT_LEN : Nat := 1568

/-- Modelled from the spec (4.1): base scalar of the DH-style idealized KEM. -/
def KYBER_G : Nat := 5

/-- Modelled from the spec (4.1): AEAD nonce length. -/
def NONCE_LEN : Nat := 12

/-- Modelled from the spec (4.1): authentication tag length of the idealized AEAD. -/
def MAC_LEN : Nat := 48

/-- Modelled from the spec (4.1): signature length of the idealized signature scheme. -/
def SIG_LEN : Nat := 64

/-- Modelled from the spec (4.1): X25519 public key of a secret scalar. -/
def curvePubOf (r : Nat) : Bytes :=
  toBytesN 32 (r * CURVE_G % KEY_N)

/-- Modelled from the spec (4.1): dawn_crypto::curve_keygen, keyed by explicit randomness. -/
def curve_keygen (r : Nat) : Bytes × Bytes :=
  (curvePubOf r, toBytesN 32 r)

/-- The raw DH shared secret value of a secret and a public key. -/
def dhSec (sk pk : Bytes) : Bytes :=
  toBytesN 32 (fromBytes sk * fromBytes pk % KEY_N)

/-- Modelled from the spec (4.1): dawn_crypto::get_curve_secret, the raw DH shared secret. -/
def get_curve_secret (sk pk : Bytes) : Except Str Bytes :=
  .ok (dhSec sk pk)

/-- Modelled from the spec (4.1): KEM public key of a secret scalar. -/
def kyberPubOf (r : Nat) : Bytes :=
  toBytesN 32 (r * KYBER_G % KEY_N)

/-- Modelled from the spec (4.1): dawn_crypto::kyber_keygen, keyed by explicit randomness. -/
def kyber_keygen (r : Nat) : Bytes × Bytes :=
  (kyberPubOf r, toBytesN 32 r)

/-- Modelled from the spec (4.1): dawn_crypto::get_kyber_secret (KEM encapsulation), with
explicit encapsulation randomness; returns the shared secret and the KEM ciphertext. -/
def get_kyber_secret (pk : Bytes) (e : Nat) : Except Str (Bytes × Bytes) :=
  .ok (toBytesN 32 (e * fromBytes pk % KEY_N), toBytesN KYBER_CT_LEN (e * KYBER_G % KEY_N))

/-- Modelled from the spec (4.1): dawn_crypto::decrypt_kyber_secret (KEM decapsulation). -/
def decrypt_kyber_secret (ct sk : Bytes) : Except Str Bytes :=
  .ok (toBytesN 32 (fromBytes sk * fromBytes ct % KEY_N))

/-- The pfs salt value derived from the DH and KEM shared secrets. -/
def pfsSaltOf (cs ks : Bytes) : Bytes :=
  0 :: lenPre cs ++ lenPre ks

/-- The id salt value derived from the DH and KEM shared secrets. -/
def idSaltOf (cs ks : Bytes) : Bytes :=
  1 :: lenPre cs ++ lenPre ks

/-- Modelled from the spec (4.3): the two salts derived from the DH and KEM shared secrets,
idealized as injective (collision-free) key derivation. -/
def derive_salts (cs ks : Bytes) : Except Str (Bytes × Bytes) :=
  .ok (pfsSaltOf cs ks, idSaltOf cs ks)

/-- Modelled from the spec (4.1): the 32-byte hash of a byte sequence, idealized. -/
def hash_bytes (l : Bytes) : Bytes :=
  toBytesN 32 (fromBytes (lenPre l))

/-- Modelled from the spec (4.1): signature public key corresponding to a secret key. -/
def sigPubOf (sk : Bytes) : Bytes :=
  2 :: sk

/-- Modelled from the spec (4.1): dawn_crypto::sign_keygen, keyed by explicit randomness. -/
def sign_keygen (r : Nat) : Bytes × Bytes :=
  (sigPubOf (toBytesN 32 r), toBytesN 32 r)

/-- Modelled from the spec (4.1): the signature bytes over a message, determined by the
public key so that verification can recompute them. -/
def sigBytes (pk msg : Bytes) : Bytes :=
  toBytesN SIG_LEN (Nat.pair (fromBytes (lenPre pk)) (fromBytes (lenPre msg)))

/-- Modelled from the spec (4.1): dawn_crypto signing with the secret key. -/
def sig_sign (sk msg : Bytes) : Bytes :=
  sigBytes (sigPubOf sk) msg

/-- Modelled from the spec (4.1): dawn_crypto signature verification with the public key. -/
def sig_verify (pk msg sig : Bytes) : Bool :=
  sig == sigBytes pk msg

/-- Modelled from the spec (4.1): the AEAD authentication tag of the idealized AEAD. -/
def macBytes (key nonce ad pt : Bytes) : Bytes :=
  toBytesN MAC_LEN
    (Nat.pair (fromBytes (lenPre key))
      (Nat.pair (fromBytes (lenPre nonce))
        (Nat.pair (fromBytes (lenPre ad)) (fromBytes (lenPre pt)))))

/-- Modelled from the spec (4.4): aead_seal; a length header, the plaintext, and the tag. -/
def aead_seal (key nonce ad pt : Bytes) : Bytes :=
  pt.length :: pt ++ macBytes key nonce ad pt

/-- Modelled from the spec (4.4): the ratchet info label fed to the KDF. -/
def ratchetInfo : Bytes :=
  strBytes (str ("ratchet"))

/-- Modelled from the spec (4.3, 4.4): the KDF, idealized as injective (collision-free)
derivation; its output is strictly longer than the input keying material. -/
def kdf (ikm salt info : Bytes) : Bytes :=
  info ++ lenPre salt ++ lenPre ikm

/-- Modelled from the spec (4.4): the next PFS chain key of the ratchet. -/
def next_pfs_key (key shared salt : Bytes) : Bytes :=
  kdf (key ++ shared) salt ratchetInfo

/-- Ratchet warnings reported by dawn_crypto::decrypt_msg. -/
inductive Warning where
  | NONE
  | SIGNATURE_ABSENT
  | SIGNATURE_BAD
  deriving DecidableEq

/-- Explicit randomness consumed by one dawn_crypto::encrypt_msg call: the KEM
encapsulation randomness and the AEAD nonce value. -/
structure MsgRng where
  e : Nat
  n : Nat
  deriving DecidableEq

/-- Modelled from the spec (4.4): dawn_crypto::encrypt_msg.  Encapsulates to the remote
KEM key, seals the plaintext, optionally signs, emits the record
kem_ct (1568) with nonce (12), AEAD body, signature flag and signature, and returns the
record together with the next PFS chain key. -/
def encrypt_msg (remote_pubkey_kyber : Bytes) (own_seckey_sig : Option Bytes)
    (pfs_key pfs_salt : Bytes) (msg : Bytes) (rng : MsgRng) : Except Str (Bytes × Bytes) :=
  match get_kyber_secret remote_pubkey_kyber rng.e with
  | .error e => .error e
  | .ok (shared, kem_ct) =>
    let nonce := toBytesN NONCE_LEN rng.n
    let body := aead_seal pfs_key nonce (pfs_salt ++ kem_ct) msg
    let sigPart : Bytes :=
      match own_seckey_sig with
      | some sk => 1 :: sig_sign sk (hash_bytes (kem_ct ++ nonce ++ body))
      | none => [0]
    .ok (kem_ct ++ nonce ++ body ++ sigPart, next_pfs_key pfs_key shared pfs_salt)

/-- Error text of the modelled provider for records that cannot be framed. -/
def dcErrShort : Str :=
  str ("@dawn-crypto: ciphertext too short")

/-- Error text of the modelled provider for a failed AEAD authentication. -/
def dcErrDecrypt : Str :=
  str ("@dawn-crypto: decryption failed")

/-- Error text of the modelled provider for a malformed signature trailer. -/
def dcErrMalformed : Str :=
  str ("@dawn-crypto: malformed record")

/-- Modelled from the spec (4.4): dawn_crypto::decrypt_msg, the inverse of encrypt_msg.
Splits the record, decapsulates, checks the AEAD tag, derives the next chain key, and
reports a signature warning: SIGNATURE_ABSENT when the record carries no signature,
SIGNATURE_BAD when one is carried but fails against the supplied public key, NONE
otherwise (a carried signature is not checked when no public key is supplied). -/
def decrypt_msg (own_seckey_kyber : Bytes) (remote_pubkey_sig : Option Bytes)
    (pfs_key pfs_salt : Bytes) (ct : Bytes) : Except Str (Bytes × Bytes × Warning) :=
  if ct.length < KYBER_CT_LEN + NONCE_LEN + 1 then .error dcErrShort
  else
    let kem_ct := ct.take KYBER_CT_LEN
    let rest1 := ct.drop KYBER_CT_LEN
    let nonce := rest1.take NONCE_LEN
    let rest2 := rest1.drop NONCE_LEN
    let n := rest2.headD 0
    if rest2.length < 1 + n + MAC_LEN + 1 then .error dcErrShort
    else
      let pt := (rest2.drop 1).take n
      let mac := (rest2.drop (1 + n)).take MAC_LEN
      let sigPart := rest2.drop (1 + n + MAC_LEN)
      match decrypt_kyber_secret kem_ct own_seckey_kyber with
      | .error e => .error e
      | .ok shared =>
        if mac ≠ macBytes pfs_key nonce (pfs_salt ++ kem_ct) pt then .error dcErrDecrypt
        else
          let newKey := next_pfs_key pfs_key shared pfs_salt
          match sigPart with
          | [0] => .ok (pt, newKey, Warning.SIGNATURE_ABSENT)
          | 1 :: sig =>
            if sig.length = SIG_LEN then
              let w :=
                match remote_pubkey_sig with
                | none => Warning.NONE
                | some pk =>
                  if sig_verify pk (hash_bytes (kem_ct ++ nonce ++ (n :: pt ++ mac))) sig
                  then Warning.NONE else Warning.SIGNATURE_BAD
              .ok (pt, newKey, w)
            else .error dcErrMalformed
          | _ => .error dcErrMalformed

/-- Modelled from the spec (4.1): dawn_crypto::sym_key_gen with explicit randomness. -/
def sym_key_gen (r : Nat) : Bytes :=
  toBytesN 32 r

/-- Modelled from the spec (4.1): dawn_crypto::id_gen, a 64-hex-char identifier. -/
def id_gen (r : Nat) : Str :=
  hex_encode (toBytesN 32 r)

/-- Modelled from the spec (4.1): dawn_crypto::mdc_gen, a fresh 64-hex-char detail code. -/
def mdc_gen (r : Nat) : Str :=
  hex_encode (toBytesN 32 r)

/-- Modelled from the spec (4.3): dawn_crypto::predictable_mdc_gen, the deterministic
hex(hash(seed and id)) message detail code. -/
def predictable_mdc_gen (seed id : Str) : Str :=
  hex_encode (hash_bytes (lenPre (strBytes seed) ++ strBytes id))

/-- Explicit randomness consumed by one dawn_crypto::init call. -/
structure InitRng where
  kyberR : Nat
  curveR : Nat
  otherR : Nat
  curveSaltR : Nat
  idR : Nat
  deriving DecidableEq

/-- Modelled from the spec (4.1, 4.5): dawn_crypto::init, producing the per-conversation
kyber keypair, curve keypair, an unused keypair, the curve-for-salt keypair and the id. -/
def init (rng : InitRng) : (Bytes × Bytes) × (Bytes × Bytes) × (Bytes × Bytes) × (Bytes × Bytes) × Str :=
  (kyber_keygen rng.kyberR, curve_keygen rng.curveR, curve_keygen rng.otherR,
    curve_keygen rng.curveSaltR, id_gen rng.idR)

/-- The InitRequest plaintext struct of lib.rs. -/
structure InitRequest where
  id : Str
  mdc : Str
  kyber : Str
  curve_for_pfs : Str
  sign : Str
  name : Str
  comment : Str
  mdc_seed : Str
  deriving DecidableEq

/-- The InitAccept plaintext struct of lib.rs. -/
structure InitAccept where
  kyber : Str
  sign : Str
  mdc : Str
  deriving DecidableEq

/-- The TextMessage plaintext struct of lib.rs. -/
structure TextMessage where
  text : Str
  mdc : Str
  deriving DecidableEq

/-- The InternalMessage plaintext struct of lib.rs. -/
structure InternalMessage where
  event : Nat
  event_data : Str
  mdc : Str
  deriving DecidableEq

/-- The VoiceMessage plaintext struct of lib.rs. -/
structure VoiceMessage where
  voice : Str
  mdc : Str
  deriving DecidableEq

/-- The PictureMessage plaintext struct of lib.rs. -/
structure PictureMessage where
  picture : Str
  description : Str
  mdc : Str
  deriving DecidableEq

/-- The LinkedMediaMessage plaintext struct of lib.rs. -/
structure LinkedMediaMessage where
  media_type : Nat
  media_link : Str
  media_key : Str
  description : Str
  mdc : Str
  deriving DecidableEq

/-- The tagged Message union of lib.rs. -/
inductive Message where
  | InitRequest (r : InitRequest)
  | InitAccept (a : InitAccept)
  | Text (t : TextMessage)
  | Internal (i : InternalMessage)
  | Voice (v : VoiceMessage)
  | Picture (p : PictureMessage)
  | LinkedMedia (l : LinkedMediaMessage)
  deriving DecidableEq

/-- The mdc field carried inside a plaintext variant (every variant carries one). -/
def Message.mdcOf : Message → Str
  | .InitRequest r => r.mdc
  | .InitAccept a => a.mdc
  | .Text t => t.mdc
  | .Internal i => i.mdc
  | .Voice v => v.mdc
  | .Picture p => p.mdc
  | .LinkedMedia l => l.mdc

/-- Length-prefixed encoding of one string field of a serialized plaintext. -/
def encodeStr (s : Str) : Bytes :=
  s.length :: s.map Char.toNat

/-- Decoder matching encodeStr; returns the field and the remaining bytes. -/
def decodeStr : Bytes → Option (Str × Bytes)
  | [] => none
  | n :: rest =>
    if n ≤ rest.length then some ((rest.take n).map Char.ofNat, rest.drop n)
    else none

/-- Modelled from the spec (6, 9): serde_json::to_string of a Message followed by taking
the UTF-8 bytes, abstracted to an injective tagged binary encoding with one tag per
variant and the fields in declaration order. -/
def serialize_message : Message → Bytes
  | .InitRequest r =>
    0 :: (encodeStr r.id ++ encodeStr r.mdc ++ encodeStr r.kyber ++ encodeStr r.curve_for_pfs
      ++ encodeStr r.sign ++ encodeStr r.name ++ encodeStr r.comment ++ encodeStr r.mdc_seed)
  | .InitAccept a => 1 :: (encodeStr a.kyber ++ encodeStr a.sign ++ encodeStr a.mdc)
  | .Text t => 2 :: (encodeStr t.text ++ encodeStr t.mdc)
  | .Internal i => 3 :: i.event :: (encodeStr i.event_data ++ encodeStr i.mdc)
  | .Voice v => 4 :: (encodeStr v.voice ++ encodeStr v.mdc)
  | .Picture p => 5 :: (encodeStr p.picture ++ encodeStr p.description ++ encodeStr p.mdc)
  | .LinkedMedia l =>
    6 :: l.media_type :: (encodeStr l.media_link ++ encodeStr l.media_key
      ++ encodeStr l.description ++ encodeStr l.mdc)

/-- Modelled from the spec (6, 9): serde_json::from_str::<Message> composed with the
string-of-bytes step, the partial inverse of serialize_message. -/
def deserialize_message (b : Bytes) : Option Message :=
  match b with
  | 0 :: rest => do
    let (id, r) ← decodeStr rest
    let (mdc, r) ← decodeStr r
    let (kyber, r) ← decodeStr r
    let (curve_for_pfs, r) ← decodeStr r
    let (sign, r) ← decodeStr r
    let (name, r) ← decodeStr r
    let (comment, r) ← decodeStr r
    let (mdc_seed, r) ← decodeStr r
    if r = [] then some (.InitRequest ⟨id, mdc, kyber, curve_for_pfs, sign, name, comment, mdc_seed⟩)
    else none
  | 1 :: rest => do
    let (kyber, r) ← decodeStr rest
    let (sign, r) ← decodeStr r
    let (mdc, r) ← decodeStr r
    if r = [] then some (.InitAccept ⟨kyber, sign, mdc⟩) else none
  | 2 :: rest => do
    let (text, r) ← decodeStr rest
    let (mdc, r) ← decodeStr r
    if r = [] then some (.Text ⟨text, mdc⟩) else none
  | 3 :: event :: rest => do
    let (event_data, r) ← decodeStr rest
    let (mdc, r) ← decodeStr r
    if r = [] then some (.Internal ⟨event, event_data, mdc⟩) else none
  | 4 :: rest => do
    let (voice, r) ← decodeStr rest
    let (mdc, r) ← decodeStr r
    if r = [] then some (.Voice ⟨voice, mdc⟩) else none
  | 5 :: rest => do
    let (picture, r) ← decodeStr rest
    let (description, r) ← decodeStr r
    let (mdc, r) ← decodeStr r
    if r = [] then some (.Picture ⟨picture, description, mdc⟩) else none
  | 6 :: media_type :: rest => do
    let (media_link, r) ← decodeStr rest
    let (media_key, r) ← decodeStr r
    let (description, r) ← decodeStr r
    let (mdc, r) ← decodeStr r
    if r = [] then some (.LinkedMedia ⟨media_type, media_link, media_key, description, mdc⟩)
    else none
  | _ => none

namespace content_type

/-- Modelled from the spec (4.6): the content type codes of the content_type module,
which is part of this repository but not under src/; five distinct codes. -/
def TEXT : Nat := 0

/-- Modelled from the spec (4.6): content code of internal event messages. -/
def INTERNAL : Nat := 1

/-- Modelled from the spec (4.6): content code of voice messages. -/
def VOICE : Nat := 2

/-- Modelled from the spec (4.6): content code of picture messages. -/
def PICTURE : Nat := 3

/-- Modelled from the spec (4.6): content code of linked-media messages. -/
def LINKED_MEDIA : Nat := 4

end content_type

/-- The error prefix applied by the error! macro of lib.rs. -/
def dawnErr (s : Str) : Str :=
  str ("@dawn-stdlib: ") ++ s

/-- Randomness consumed by one gen_init_request call: the init bundle randomness, the
second PFS curve keypair, the for-salt KEM encapsulation, the mdc seed, and the
encrypt_msg randomness. -/
structure GenRng where
  initR : InitRng
  pfs2R : Nat
  saltE : Nat
  mdcSeedR : Nat
  msg : MsgRng
  deriving DecidableEq

/-- lib.rs gen_init_request: builds the InitRequest plaintext, encrypts it under the
derived PFS key, and frames it behind the two curve public keys and the for-salt KEM
ciphertext.  Returns own kyber keypair, own curve keypair, new pfs key, remote pfs key,
pfs salt, id, id salt, message detail code, mdc seed, and the encrypted message. -/
def gen_init_request (remote_pubkey_kyber remote_pubkey_kyber_for_salt remote_pubkey_curve
    remote_pubkey_curve_pfs_2 remote_pubkey_curve_for_salt own_pubkey_sig own_seckey_sig : Bytes)
    (name comment mdc : Str) (rng : GenRng) :
    Except Str ((Bytes × Bytes) × (Bytes × Bytes) × Bytes × Bytes × Bytes × Str × Bytes × Str × Str × Bytes) :=
  if name = [] then .error (dawnErr (str ("name must not be empty")))
  else
    match init rng.initR with
    | ((own_pubkey_kyber, own_seckey_kyber), (own_pubkey_curve, own_seckey_curve), _,
        (own_pubkey_curve_for_salt, own_seckey_curve_for_salt), id) =>
      match curve_keygen rng.pfs2R with
      | (own_pubkey_curve_pfs_2, own_seckey_curve_pfs_2) =>
        match get_curve_secret own_seckey_curve remote_pubkey_curve with
        | .error err => .error err
        | .ok own_pfs_key =>
        match get_curve_secret own_seckey_curve_pfs_2 remote_pubkey_curve_pfs_2 with
        | .error err => .error err
        | .ok remote_pfs_key =>
        match get_curve_secret own_seckey_curve_for_salt remote_pubkey_curve_for_salt with
        | .error err => .error err
        | .ok derive_salt_curve =>
        match get_kyber_secret remote_pubkey_kyber_for_salt rng.saltE with
        | .error _ => .error (dawnErr (str ("failed to get kyber secret for salt derivation")))
        | .ok (derive_salt_kyber, derive_salt_kyber_ciphertext) =>
        match derive_salts derive_salt_curve derive_salt_kyber with
        | .error _ => .error (dawnErr (str ("failed to derive salts")))
        | .ok (pfs_salt, id_salt) =>
          let mdc_seed := hex_encode (sym_key_gen rng.mdcSeedR)
          let message_data := Message.InitRequest
            ⟨id, mdc, hex_encode own_pubkey_kyber, hex_encode own_pubkey_curve_pfs_2,
              hex_encode own_pubkey_sig, name, comment, mdc_seed⟩
          match encrypt_msg remote_pubkey_kyber (some own_seckey_sig) own_pfs_key pfs_salt
              (serialize_message message_data) rng.msg with
          | .error err => .error err
          | .ok (msg_ciphertext, new_pfs_key) =>
            .ok ((own_pubkey_kyber, own_seckey_kyber), (own_pubkey_curve, own_seckey_curve),
              new_pfs_key, remote_pfs_key, pfs_salt, id, id_salt, mdc, mdc_seed,
              own_pubkey_curve ++ own_pubkey_curve_for_salt ++ derive_salt_kyber_ciphertext ++ msg_ciphertext)

/-- lib.rs parse_init_request after the decrypt step: parses the InitRequest plaintext
and recovers the embedded keys. -/
def parse_init_request_tail (msg_content new_remote_pfs_key id_salt pfs_salt
    own_seckey_curve_pfs_2 : Bytes) :
    Except Str (Str × Bytes × Str × Bytes × Bytes × Bytes × Bytes × Bytes × Str × Str × Str) :=
  match deserialize_message msg_content with
  | none => .error (dawnErr (str ("json parsing failed")))
  | some (Message.InitRequest init_request) =>
    (match hex_decode init_request.kyber with
    | none => .error (dawnErr (str ("remote kyber pubkey invalid")))
    | some remote_pubkey_kyber =>
    match hex_decode init_request.curve_for_pfs with
    | none => .error (dawnErr (str ("remote curve pubkey invalid")))
    | some remote_pubkey_curve_pfs_2 =>
    match hex_decode init_request.sign with
    | none => .error (dawnErr (str ("remote signature pubkey invalid")))
    | some remote_pubkey_sig =>
    match get_curve_secret own_seckey_curve_pfs_2 remote_pubkey_curve_pfs_2 with
    | .error err => .error err
    | .ok own_pfs_key =>
      .ok (init_request.id, id_salt, init_request.mdc, remote_pubkey_kyber, remote_pubkey_sig,
        own_pfs_key, new_remote_pfs_key, pfs_salt, init_request.name, init_request.comment,
        init_request.mdc_seed))
  | some _ => .error (dawnErr (str ("content did not match init request type")))

/-- lib.rs parse_init_request after the frame split: derives the PFS material, decrypts,
then parses the plaintext. -/
def parse_init_request_rest (remote_pubkey_curve remote_pubkey_curve_for_salt
    remote_kyber_ciphertext_for_salt ciphertext own_seckey_kyber own_seckey_curve
    own_seckey_curve_pfs_2 own_seckey_kyber_for_salt own_seckey_curve_for_salt : Bytes) :
    Except Str (Str × Bytes × Str × Bytes × Bytes × Bytes × Bytes × Bytes × Str × Str × Str) :=
  match get_curve_secret own_seckey_curve remote_pubkey_curve with
  | .error err => .error err
  | .ok remote_pfs_key =>
  match get_curve_secret own_seckey_curve_for_salt remote_pubkey_curve_for_salt with
  | .error err => .error err
  | .ok derive_salt_curve =>
  match decrypt_kyber_secret remote_kyber_ciphertext_for_salt own_seckey_kyber_for_salt with
  | .error _ => .error (dawnErr (str ("failed to decrypt kyber secret for salt derivation")))
  | .ok derive_salt_kyber =>
  match derive_salts derive_salt_curve derive_salt_kyber with
  | .error _ => .error (dawnErr (str ("failed to derive salts")))
  | .ok (pfs_salt, id_salt) =>
  match decrypt_msg own_seckey_kyber none remote_pfs_key pfs_salt ciphertext with
  | .error err => .error err
  | .ok (msg_content, new_remote_pfs_key, _) =>
    parse_init_request_tail msg_content new_remote_pfs_key id_salt pfs_salt
      own_seckey_curve_pfs_2

/-- lib.rs parse_init_request: checks the minimum length, splits the bootstrap frame at
offsets 32, 64 and 64 + 1568, and hands the parts to the rest of the parser. -/
def parse_init_request (request_body own_seckey_kyber own_seckey_curve own_seckey_curve_pfs_2
    own_seckey_kyber_for_salt own_seckey_curve_for_salt : Bytes) :
    Except Str (Str × Bytes × Str × Bytes × Bytes × Bytes × Bytes × Bytes × Str × Str × Str) :=
  if request_body.length ≤ 32 * 2 + 1568 then .error (dawnErr (str ("request was too short!")))
  else
    parse_init_request_rest (request_body.take 32) ((request_body.drop 32).take 32)
      ((request_body.drop 64).take 1568) (request_body.drop 1632) own_seckey_kyber
      own_seckey_curve own_seckey_curve_pfs_2 own_seckey_kyber_for_salt own_seckey_curve_for_salt

/-- lib.rs accept_init_request: builds and encrypts the InitAccept plaintext; the mdc is
the predictable detail code of the conversation id under the mdc seed. -/
def accept_init_request (own_pubkey_sig own_seckey_sig remote_pubkey_kyber pfs_key pfs_salt : Bytes)
    (id mdc_seed : Str) (kyberR : Nat) (rng : MsgRng) :
    Except Str (Bytes × (Bytes × Bytes) × Str × Bytes) :=
  let mdc := predictable_mdc_gen mdc_seed id
  match kyber_keygen kyberR with
  | (own_pubkey_kyber, own_seckey_kyber) =>
    let message_data := Message.InitAccept ⟨hex_encode own_pubkey_kyber, hex_encode own_pubkey_sig, mdc⟩
    match encrypt_msg remote_pubkey_kyber (some own_seckey_sig) pfs_key pfs_salt
        (serialize_message message_data) rng with
    | .error err => .error err
    | .ok (msg_ciphertext, new_pfs_key) =>
      .ok (new_pfs_key, (own_pubkey_kyber, own_seckey_kyber), mdc, msg_ciphertext)

/-- The CRITICAL error text of lib.rs for a missing or failed required signature. -/
def critSigMsg : Str :=
  str ("CRITICAL: signature verification was requested, but the remote side did not provide a signature")

/-- lib.rs parse_init_response after the decrypt and signature-warning check. -/
def parse_init_response_rest (msg_content new_pfs_key : Bytes) :
    Except Str (Bytes × Bytes × Bytes × Str) :=
  match deserialize_message msg_content with
  | none => .error (dawnErr (str ("json parsing failed")))
  | some (Message.InitAccept init_accept) =>
    (match hex_decode init_accept.kyber with
    | none => .error (dawnErr (str ("remote kyber pubkey invalid")))
    | some remote_pubkey_kyber =>
    match hex_decode init_accept.sign with
    | none => .error (dawnErr (str ("remote signature pubkey invalid")))
    | some remote_pubkey_sig =>
      .ok (remote_pubkey_kyber, remote_pubkey_sig, new_pfs_key, init_accept.mdc))
  | some _ => .error (dawnErr (str ("content did not match init accept type")))

/-- lib.rs parse_init_response: decrypts, fails when a signature warning was reported
while a remote signature public key was supplied, then parses the InitAccept. -/
def parse_init_response (msg_ciphertext own_seckey_kyber : Bytes) (remote_pubkey_sig : Option Bytes)
    (pfs_key pfs_salt : Bytes) : Except Str (Bytes × Bytes × Bytes × Str) :=
  match decrypt_msg own_seckey_kyber remote_pubkey_sig pfs_key pfs_salt msg_ciphertext with
  | .error err => .error err
  | .ok (msg_content, new_pfs_key, warning) =>
    if warning ≠ Warning.NONE ∧ remote_pubkey_sig.isSome then .error (dawnErr critSigMsg)
    else parse_init_response_rest msg_content new_pfs_key

/-- lib.rs parse_msg, content dispatch on the decrypted plaintext variant. -/
def parse_msg_content (message : Message) :
    Except Str ((Nat × Option Str × Option Bytes) × Str) :=
  match message with
  | .Text msg => .ok ((content_type.TEXT, some msg.text, none), msg.mdc)
  | .Internal msg => .ok ((content_type.INTERNAL, some msg.event_data, none), msg.mdc)
  | .Voice msg =>
    (match b64_decode msg.voice with
    | none => .error (dawnErr (str ("voice message data invalid")))
    | some msg_bytes => .ok ((content_type.VOICE, none, some msg_bytes), msg.mdc))
  | .Picture msg =>
    (match b64_decode msg.picture with
    | none => .error (dawnErr (str ("picture data invalid")))
    | some msg_bytes => .ok ((content_type.PICTURE, some msg.description, some msg_bytes), msg.mdc))
  | .LinkedMedia msg =>
    .ok ((content_type.LINKED_MEDIA,
      some (msg.media_link ++ str ("\n") ++ msg.media_key ++ str ("\n") ++ msg.description),
      some [msg.media_type]), msg.mdc)
  | _ => .error (dawnErr (str ("message type not known or unexpected init message")))

/-- lib.rs parse_msg after the decrypt and signature-warning check. -/
def parse_msg_rest (msg_content new_pfs_key : Bytes) :
    Except Str ((Nat × Option Str × Option Bytes) × Bytes × Str) :=
  match deserialize_message msg_content with
  | none => .error (dawnErr (str ("json parsing failed")))
  | some message =>
    match parse_msg_content message with
    | .error err => .error err
    | .ok (content, mdc) => .ok (content, new_pfs_key, mdc)

/-- lib.rs parse_msg: decrypts, fails when a signature warning was reported while a
remote signature public key was supplied, then dispatches on the plaintext variant. -/
def parse_msg (msg_ciphertext own_seckey_kyber : Bytes) (remote_pubkey_sig : Option Bytes)
    (pfs_key pfs_salt : Bytes) : Except Str ((Nat × Option Str × Option Bytes) × Bytes × Str) :=
  match decrypt_msg own_seckey_kyber remote_pubkey_sig pfs_key pfs_salt msg_ciphertext with
  | .error _ => .error (dawnErr (str ("decryption failed")))
  | .ok (msg_content, new_pfs_key, warning) =>
    if warning ≠ Warning.NONE ∧ remote_pubkey_sig.isSome then .error (dawnErr critSigMsg)
    else parse_msg_rest msg_content new_pfs_key

/-- Decimal digits of a number, as interpolated by the Rust format! macro. -/
def natToStr (n : Nat) : Str :=
  Nat.toDigits 10 n

/-- The message_data construction block of lib.rs send_msg: validates the
(content type, text, data) input and builds the plaintext variant.  A Rust panic
(the unwrap of a missing first line in the LinkedMedia branch) is modelled as none. -/
def build_message (msg_type : Nat) (msg_text : Option Str) (msg_data : Option Bytes)
    (mdc : Str) : Option (Except Str Message) :=
  if msg_type = content_type.TEXT then
    match msg_text with
    | none => some (.error (dawnErr (str ("no text was provided"))))
    | some t => some (.ok (.Text ⟨t, mdc⟩))
  else if msg_type = content_type.INTERNAL then
    match msg_text with
    | none => some (.error (dawnErr (str ("no event code was provided"))))
    | some t =>
      match parseU8 t with
      | none => some (.error (dawnErr (str ("invalid event code"))))
      | some event_id =>
        match msg_data with
        | none => some (.error (dawnErr (str ("missing event data"))))
        | some d => some (.ok (.Internal ⟨event_id, b64_encode d, mdc⟩))
  else if msg_type = content_type.VOICE then
    match msg_data with
    | none => some (.error (dawnErr (str ("no voice data was provided"))))
    | some d => some (.ok (.Voice ⟨b64_encode d, mdc⟩))
  else if msg_type = content_type.PICTURE then
    match msg_data with
    | none => some (.error (dawnErr (str ("no picture data was provided"))))
    | some d =>
      let description := msg_text.getD []
      some (.ok (.Picture ⟨b64_encode d, description, mdc⟩))
  else if msg_type = content_type.LINKED_MEDIA then
    match msg_data with
    | none => some (.error (dawnErr (str ("no voice data was provided"))))
    | some d =>
      if d.length ≠ 1 then
        some (.error (dawnErr (str ("expected 1 byte to identify media type, got ")
          ++ natToStr d.length ++ str (" bytes"))))
      else
        match msg_text with
        | none => some (.error (dawnErr (str ("no link was provided"))))
        | some t =>
          match rustLines t with
          | [] => none
          | media_link :: afterLink =>
            match afterLink with
            | [] => some (.error (dawnErr (str ("no media key was provided"))))
            | media_key :: descLines =>
              let description :=
                (descLines.foldl (fun acc line => acc ++ line ++ ['\n']) ([] : Str)).dropLast
              some (.ok (.LinkedMedia ⟨d.headD 0, media_link, media_key, description, mdc⟩))
  else some (.error (dawnErr (str ("requested content type not implemented"))))

/-- lib.rs send_msg: derives the predictable mdc, validates and builds the plaintext
variant, encrypts it, and returns new PFS key, message detail code and ciphertext.
A Rust panic inside the construction block is modelled as none. -/
def send_msg (msg_type : Nat) (msg_text : Option Str) (msg_data : Option Bytes)
    (remote_pubkey_kyber : Bytes) (own_seckey_sig : Option Bytes) (pfs_key pfs_salt : Bytes)
    (id mdc_seed : Str) (rng : MsgRng) : Option (Except Str (Bytes × Str × Bytes)) :=
  let mdc := predictable_mdc_gen mdc_seed id
  match build_message msg_type msg_text msg_data mdc with
  | none => none
  | some (.error err) => some (.error err)
  | some (.ok message_data) =>
    match encrypt_msg remote_pubkey_kyber own_seckey_sig pfs_key pfs_salt
        (serialize_message message_data) rng with
    | .error err => some (.error err)
    | .ok (msg_ciphertext, new_pfs_key) => some (.ok (new_pfs_key, mdc, msg_ciphertext))

/-- lib.rs gen_handle: hex-encodes the five init public keys and joins them with the
display name and the anchor mdc, newline separated, as UTF-8 bytes. -/
def gen_handle (init_pubkey_kyber init_pubkey_curve init_pubkey_curve_pfs_2
    init_pubkey_kyber_for_salt init_pubkey_curve_for_salt : Bytes) (name mdc : Str) : Bytes :=
  strBytes (hex_encode init_pubkey_kyber ++ ['\n'] ++ hex_encode init_pubkey_curve ++ ['\n']
    ++ hex_encode init_pubkey_curve_pfs_2 ++ ['\n'] ++ hex_encode init_pubkey_kyber_for_salt
    ++ ['\n'] ++ hex_encode init_pubkey_curve_for_salt ++ ['\n'] ++ name ++ ['\n'] ++ mdc)

/-- lib.rs parse_handle: decodes UTF-8, splits at newlines, hex-decodes the five leading
key fields and takes the name and mdc; every failure returns the same error text. -/
def parse_handle (handle_content : Bytes) :
    Except Str (Bytes × Bytes × Bytes × Bytes × Bytes × Str × Str) :=
  match bytesStr handle_content with
  | none => .error (dawnErr (str ("handle content is not valid UTF-8!")))
  | some handle_string =>
    match splitNl handle_string with
    | f1 :: f2 :: f3 :: f4 :: f5 :: name :: mdc :: _ =>
      (match hex_decode f1, hex_decode f2, hex_decode f3, hex_decode f4, hex_decode f5 with
      | some k1, some k2, some k3, some k4, some k5 => .ok (k1, k2, k3, k4, k5, name, mdc)
      | _, _, _, _, _ => .error (dawnErr (str ("handle format invalid!"))))
    | _ => .error (dawnErr (str ("handle format invalid!")))

/-- The KEM shared secret as the encapsulating side derives it. -/
def encapShared (pk : Bytes) (e : Nat) : Bytes :=
  toBytesN 32 (e * fromBytes pk % KEY_N)

/-- The KEM ciphertext produced by encapsulation randomness e. -/
def kemCtOf (e : Nat) : Bytes :=
  toBytesN KYBER_CT_LEN (e * KYBER_G % KEY_N)

/-- The wire record emitted by the modelled encrypt_msg, as an explicit value. -/
def msgRecord (optSk : Option Bytes) (key salt pt : Bytes) (rng : MsgRng) : Bytes :=
  let kem_ct := toBytesN KYBER_CT_LEN (rng.e * KYBER_G % KEY_N)
  let nonce := toBytesN NONCE_LEN rng.n
  let body := aead_seal key nonce (salt ++ kem_ct) pt
  let sigPart : Bytes :=
    match optSk with
    | some sk => 1 :: sig_sign sk (hash_bytes (kem_ct ++ nonce ++ body))
    | none => [0]
  kem_ct ++ nonce ++ body ++ sigPart

/-- The warning the modelled decrypt_msg reports for an honestly produced record:
absent when the sender did not sign, otherwise determined by verification against the
supplied public key. -/
def expectedWarn (optSk optPk : Option Bytes) (h : Bytes) : Warning :=
  match optSk with
  | none => .SIGNATURE_ABSENT
  | some sk =>
    match optPk with
    | none => .NONE
    | some pk => if sig_verify pk h (sig_sign sk h) then .NONE else .SIGNATURE_BAD

/-- The hash that the modelled ratchet signs for a given record configuration. -/
def sigHashOf (key salt pt : Bytes) (rng : MsgRng) : Bytes :=
  hash_bytes (kemCtOf rng.e ++ toBytesN NONCE_LEN rng.n
    ++ aead_seal key (toBytesN NONCE_LEN rng.n) (salt ++ kemCtOf rng.e) pt)

/-- Compatibility of the sender signing key and receiver verification key options:
either the receiver does not verify, or it verifies against the public key that
matches the key the sender signed with. -/
def sigMatch (optSk optPk : Option Bytes) : Prop :=
  optPk = none ∨ (∃ sk, optSk = some sk ∧ optPk = some (sigPubOf sk))

/-- Rebuild of a multi-line description the way lib.rs send_msg joins it: each line
followed by a newline, with the final newline popped. -/
def joinDesc (lines : List Str) : Str :=
  (lines.foldl (fun acc line => acc ++ line ++ ['\n']) ([] : Str)).dropLast

theorem length_toBytesN (k x : Nat) : (toBytesN k x).length = k := by
  induction k generalizing x with
  | zero => rfl
  | succ k ih => simp [toBytesN, ih]

theorem allBytes_toBytesN (k x : Nat) : allBytes (toBytesN k x) := by
  induction k generalizing x with
  | zero => intro b hb; cases hb
  | succ k ih =>
    intro b hb
    cases hb with
    | head => exact Nat.mod_lt _ (by decide)
    | tail _ h => exact ih _ _ h

theorem fromBytes_toBytesN (k x : Nat) : fromBytes (toBytesN k x) = x % 256 ^ k := by
  induction k generalizing x with
  | zero => simp [toBytesN, fromBytes, Nat.mod_one]
  | succ k ih =>
    simp only [toBytesN, fromBytes, ih]
    rw [pow_succ, Nat.mul_comm (256 ^ k) 256, Nat.mod_mul]

theorem fromBytes_toBytesN_of_lt (k x : Nat) (h : x < 256 ^ k) :
    fromBytes (toBytesN k x) = x := by
  rw [fromBytes_toBytesN, Nat.mod_eq_of_lt h]

theorem take_append_len (a b : Bytes) (n : Nat) (h : a.length = n) : (a ++ b).take n = a := by
  subst h; exact List.take_left a b

theorem drop_append_len (a b : Bytes) (n : Nat) (h : a.length = n) : (a ++ b).drop n = b := by
  subst h; exact List.drop_left a b

theorem mul_mod_fold (a b n : Nat) : a % n * (b % n) % n = a * b % n :=
  (Nat.mul_mod a b n).symm

theorem get_curve_secret_pub (a b : Nat) :
    get_curve_secret (toBytesN 32 a) (curvePubOf b)
      = .ok (toBytesN 32 (a * (b * CURVE_G) % KEY_N)) := by
  unfold get_curve_secret dhSec curvePubOf KEY_N
  rw [fromBytes_toBytesN, fromBytes_toBytesN, Nat.mod_mod_of_dvd _ dvd_rfl, mul_mod_fold]

theorem get_curve_secret_comm (a b : Nat) :
    get_curve_secret (toBytesN 32 a) (curvePubOf b)
      = get_curve_secret (toBytesN 32 b) (curvePubOf a) := by
  rw [get_curve_secret_pub, get_curve_secret_pub, Nat.mul_left_comm]

theorem encapShared_pub (r e : Nat) :
    encapShared (kyberPubOf r) e = toBytesN 32 (e * (r * KYBER_G) % KEY_N) := by
  unfold encapShared kyberPubOf KEY_N
  rw [fromBytes_toBytesN, Nat.mod_mod_of_dvd _ dvd_rfl, Nat.mul_mod_mod]

theorem get_kyber_secret_pub (r e : Nat) :
    get_kyber_secret (kyberPubOf r) e
      = .ok (encapShared (kyberPubOf r) e, kemCtOf e) := rfl

theorem decrypt_kyber_secret_ct (r e : Nat) :
    decrypt_kyber_secret (kemCtOf e) (toBytesN 32 r)
      = .ok (encapShared (kyberPubOf r) e) := by
  unfold decrypt_kyber_secret kemCtOf
  rw [encapShared_pub, fromBytes_toBytesN, fromBytes_toBytesN]
  have hlt : e * KYBER_G % KEY_N < 256 ^ KYBER_CT_LEN := by
    have h1 : e * KYBER_G % KEY_N < KEY_N := Nat.mod_lt _ (by unfold KEY_N; positivity)
    have h2 : KEY_N ≤ 256 ^ KYBER_CT_LEN := by
      unfold KEY_N KYBER_CT_LEN
      exact Nat.pow_le_pow_right (by decide) (by decide)
    omega
  have hKN : (256 : Nat) ^ 32 = KEY_N := rfl
  rw [Nat.mod_eq_of_lt hlt, hKN, Nat.mod_mul_mod, Nat.mul_mod_mod, Nat.mul_left_comm]

theorem length_sig_sign (sk h : Bytes) : (sig_sign sk h).length = SIG_LEN := by
  unfold sig_sign sigBytes
  exact length_toBytesN _ _

theorem sig_verify_sign (sk h : Bytes) : sig_verify (sigPubOf sk) h (sig_sign sk h) = true := by
  simp [sig_verify, sig_sign]

theorem length_macBytes (key nonce ad pt : Bytes) :
    (macBytes key nonce ad pt).length = MAC_LEN := length_toBytesN _ _

theorem encrypt_msg_eq (pk : Bytes) (optSk : Option Bytes) (key salt pt : Bytes) (rng : MsgRng) :
    encrypt_msg pk optSk key salt pt rng
      = .ok (msgRecord optSk key salt pt rng,
          next_pfs_key key (encapShared pk rng.e) salt) := rfl

theorem length_sigPart (optSk : Option Bytes) (h : Bytes) :
    1 ≤ (match optSk with
      | some sk => 1 :: sig_sign sk h
      | none => ([0] : Bytes)).length := by
  cases optSk <;> simp


set_option maxHeartbeats 800000 in
theorem decrypt_msg_record_core (rK : Nat) (optPk : Option Bytes)
    (key salt pt sig2 : Bytes) (e n : Nat) (hs : 1 ≤ sig2.length) :
    decrypt_msg (toBytesN 32 rK) optPk key salt
      (kemCtOf e ++ toBytesN NONCE_LEN n
        ++ (pt.length :: pt ++ macBytes key (toBytesN NONCE_LEN n) (salt ++ kemCtOf e) pt)
        ++ sig2)
    = (match sig2 with
      | [0] => .ok (pt, next_pfs_key key (encapShared (kyberPubOf rK) e) salt,
          Warning.SIGNATURE_ABSENT)
      | 1 :: sg =>
        if sg.length = SIG_LEN then
          .ok (pt, next_pfs_key key (encapShared (kyberPubOf rK) e) salt,
            (match optPk with
            | none => Warning.NONE
            | some pk =>
              if sig_verify pk (hash_bytes (kemCtOf e ++ toBytesN NONCE_LEN n
                  ++ (pt.length :: pt ++ macBytes key (toBytesN NONCE_LEN n)
                    (salt ++ kemCtOf e) pt))) sg
              then Warning.NONE else Warning.SIGNATURE_BAD))
        else .error dcErrMalformed
      | _ => .error dcErrMalformed) := by
  have hdecap : decrypt_kyber_secret (kemCtOf e) (toBytesN 32 rK)
      = .ok (encapShared (kyberPubOf rK) e) := decrypt_kyber_secret_ct rK e
  have hkc0 : (kemCtOf e).length = KYBER_CT_LEN := length_toBytesN _ _
  have hnn0 : (toBytesN NONCE_LEN n).length = NONCE_LEN := length_toBytesN _ _
  generalize hKC : kemCtOf e = KC at hdecap hkc0 ⊢
  generalize hNN : toBytesN NONCE_LEN n = NN at hnn0 ⊢
  have hmc0 : (macBytes key NN (salt ++ KC) pt).length = MAC_LEN := length_macBytes _ _ _ _
  generalize hMC : macBytes key NN (salt ++ KC) pt = MC at hmc0 ⊢
  have hshape : KC ++ NN ++ (pt.length :: pt ++ MC) ++ sig2
      = KC ++ (NN ++ (pt.length :: ((pt ++ MC) ++ sig2))) := by
    simp [List.append_assoc]
  rw [hshape]
  simp only [decrypt_msg]
  rw [if_neg (by
    simp only [List.length_append, List.length_cons, hkc0, hnn0]
    omega)]
  rw [take_append_len _ _ _ hkc0, drop_append_len _ _ _ hkc0,
    take_append_len _ _ _ hnn0, drop_append_len _ _ _ hnn0]
  simp only [List.headD_cons]
  rw [if_neg (by
    simp only [List.length_cons, List.length_append, hmc0]
    omega)]
  have hdropn : ∀ m : Nat,
      (pt.length :: ((pt ++ MC) ++ sig2)).drop (1 + m) = (pt ++ (MC ++ sig2)).drop m := by
    intro m
    rw [Nat.add_comm 1 m, List.drop_succ_cons, List.append_assoc]
  have hpt : ((pt.length :: ((pt ++ MC) ++ sig2)).drop 1).take pt.length = pt := by
    have h1 := hdropn 0
    simp only [Nat.add_zero] at h1
    rw [h1, List.drop_zero]
    exact take_append_len _ _ _ rfl
  simp only [hpt]
  have hmac2 : ((pt.length :: ((pt ++ MC) ++ sig2)).drop (1 + pt.length)).take MAC_LEN = MC := by
    rw [hdropn, drop_append_len pt _ _ rfl]
    exact take_append_len _ _ _ hmc0
  have hsig2 : (pt.length :: ((pt ++ MC) ++ sig2)).drop (1 + pt.length + MAC_LEN) = sig2 := by
    rw [Nat.add_assoc, hdropn, ← List.drop_drop, drop_append_len pt _ _ rfl,
      drop_append_len _ _ _ hmc0]
  simp only [hmac2, hsig2, hdecap]
  rw [if_neg (by simp [hMC])]
  cases sig2 with
  | nil => exact absurd hs (by simp)
  | cons b sg =>
    cases b with
    | zero =>
      cases sg with
      | nil => rfl
      | cons c cs => rfl
    | succ b1 =>
      cases b1 with
      | zero => rfl
      | succ b2 => rfl

set_option maxHeartbeats 800000 in
theorem decrypt_msg_msgRecord (rK : Nat) (optSk optPk : Option Bytes)
    (key salt pt : Bytes) (rng : MsgRng) :
    decrypt_msg (toBytesN 32 rK) optPk key salt (msgRecord optSk key salt pt rng)
      = .ok (pt, next_pfs_key key (encapShared (kyberPubOf rK) rng.e) salt,
          expectedWarn optSk optPk (sigHashOf key salt pt rng)) := by
  cases optSk with
  | none =>
    have h := decrypt_msg_record_core rK optPk key salt pt [0] rng.e rng.n (by simp)
    have hrec : msgRecord none key salt pt rng
        = kemCtOf rng.e ++ toBytesN NONCE_LEN rng.n
          ++ (pt.length :: pt ++ macBytes key (toBytesN NONCE_LEN rng.n)
              (salt ++ kemCtOf rng.e) pt) ++ [0] := by
      simp only [msgRecord, aead_seal, kemCtOf]
    rw [hrec, h]
    rfl
  | some sk =>
    have h := decrypt_msg_record_core rK optPk key salt pt
      (1 :: sig_sign sk (sigHashOf key salt pt rng)) rng.e rng.n (by simp)
    have hrec : msgRecord (some sk) key salt pt rng
        = kemCtOf rng.e ++ toBytesN NONCE_LEN rng.n
          ++ (pt.length :: pt ++ macBytes key (toBytesN NONCE_LEN rng.n)
              (salt ++ kemCtOf rng.e) pt)
          ++ (1 :: sig_sign sk (sigHashOf key salt pt rng)) := by
      simp only [msgRecord, aead_seal, kemCtOf, sigHashOf]
    rw [hrec, h]
    cases optPk with
    | none => rfl
    | some pk => rfl

theorem map_ofNat_toNat (s : Str) : (s.map Char.toNat).map Char.ofNat = s := by
  induction s with
  | nil => rfl
  | cons c cs ih => simp [ih, Char.ofNat_toNat]

theorem decodeStr_encodeStr (s : Str) (r : Bytes) :
    decodeStr (encodeStr s ++ r) = some (s, r) := by
  simp only [encodeStr, decodeStr, List.cons_append]
  rw [if_pos (by simp)]
  rw [take_append_len _ _ _ (by simp), drop_append_len _ _ _ (by simp)]
  rw [map_ofNat_toNat]

theorem decodeStr_encodeStr_nil (s : Str) :
    decodeStr (encodeStr s) = some (s, []) := by
  have h := decodeStr_encodeStr s []
  rwa [List.append_nil] at h

theorem deserialize_serialize (m : Message) :
    deserialize_message (serialize_message m) = some m := by
  cases m with
  | InitRequest r =>
    simp [serialize_message, deserialize_message, List.append_assoc,
      decodeStr_encodeStr, decodeStr_encodeStr_nil]
  | InitAccept a =>
    simp [serialize_message, deserialize_message, List.append_assoc,
      decodeStr_encodeStr, decodeStr_encodeStr_nil]
  | Text t =>
    simp [serialize_message, deserialize_message, List.append_assoc,
      decodeStr_encodeStr, decodeStr_encodeStr_nil]
  | Internal i =>
    simp [serialize_message, deserialize_message, List.append_assoc,
      decodeStr_encodeStr, decodeStr_encodeStr_nil]
  | Voice v =>
    simp [serialize_message, deserialize_message, List.append_assoc,
      decodeStr_encodeStr, decodeStr_encodeStr_nil]
  | Picture p =>
    simp [serialize_message, deserialize_message, List.append_assoc,
      decodeStr_encodeStr, decodeStr_encodeStr_nil]
  | LinkedMedia l =>
    simp [serialize_message, deserialize_message, List.append_assoc,
      decodeStr_encodeStr, decodeStr_encodeStr_nil]

theorem hexVal_hexDigit (d : Nat) (h : d < 16) : hexVal (hexDigit d) = some d := by
  interval_cases d <;> decide

theorem hex_decode_encode (bs : Bytes) (h : allBytes bs) :
    hex_decode (hex_encode bs) = some bs := by
  induction bs with
  | nil => rfl
  | cons b tl ih =>
    have hb : b < 256 := h b (List.mem_cons_self b tl)
    have htl : allBytes tl := fun x hx => h x (List.mem_cons_of_mem b hx)
    have hhi : b / 16 % 16 < 16 := Nat.mod_lt _ (by decide)
    have hlo : b % 16 < 16 := Nat.mod_lt _ (by decide)
    simp only [hex_encode, hex_decode, hexVal_hexDigit _ hhi, hexVal_hexDigit _ hlo, ih htl]
    have hb16 : b / 16 % 16 = b / 16 := Nat.mod_eq_of_lt (by omega)
    rw [hb16]
    have : 16 * (b / 16) + b % 16 = b := by omega
    rw [this]

theorem hexDigit_ne_nl (d : Nat) (h : d < 16) : hexDigit d ≠ '\n' := by
  interval_cases d <;> decide

theorem nl_not_mem_hex_encode (bs : Bytes) : '\n' ∉ hex_encode bs := by
  induction bs with
  | nil => simp [hex_encode]
  | cons b tl ih =>
    simp only [hex_encode, List.mem_cons, not_or]
    refine ⟨?_, ?_, ih⟩
    · exact fun hc => hexDigit_ne_nl _ (Nat.mod_lt _ (by decide)) hc.symm
    · exact fun hc => hexDigit_ne_nl _ (Nat.mod_lt _ (by decide)) hc.symm

theorem b64Val_b64Char (d : Nat) (h : d < 64) : b64Val (b64Char d) = some d := by
  interval_cases d <;> decide

theorem b64_decode_encode : ∀ bs : Bytes, allBytes bs → b64_decode (b64_encode bs) = some bs
  | [], _ => rfl
  | [b1], h => by
    have hb1 : b1 < 256 := h b1 (by simp)
    simp only [b64_encode, b64_decode,
      b64Val_b64Char (b1 / 4) (by omega),
      b64Val_b64Char (b1 % 4 * 16) (by omega)]
    rw [if_pos (by omega)]
    have he : b1 / 4 * 4 + b1 % 4 * 16 / 16 = b1 := by omega
    rw [he]
  | [b1, b2], h => by
    have hb1 : b1 < 256 := h b1 (by simp)
    have hb2 : b2 < 256 := h b2 (by simp)
    simp only [b64_encode, b64_decode,
      b64Val_b64Char (b1 / 4) (by omega),
      b64Val_b64Char (b1 % 4 * 16 + b2 / 16) (by omega),
      b64Val_b64Char (b2 % 16 * 4) (by omega)]
    rw [if_pos (by omega)]
    have he1 : b1 / 4 * 4 + (b1 % 4 * 16 + b2 / 16) / 16 = b1 := by omega
    have he2 : (b1 % 4 * 16 + b2 / 16) % 16 * 16 + b2 % 16 * 4 / 4 = b2 := by omega
    rw [he1, he2]
  | b1 :: b2 :: b3 :: rest, h => by
    have hb1 : b1 < 256 := h b1 (by simp)
    have hb2 : b2 < 256 := h b2 (by simp)
    have hb3 : b3 < 256 := h b3 (by simp)
    have hrest : allBytes rest := fun x hx => h x (by simp [hx])
    simp only [b64_encode, b64_decode,
      b64Val_b64Char (b1 / 4) (by omega),
      b64Val_b64Char (b1 % 4 * 16 + b2 / 16) (by omega),
      b64Val_b64Char (b2 % 16 * 4 + b3 / 64) (by omega),
      b64Val_b64Char (b3 % 64) (by omega),
      b64_decode_encode rest hrest]
    have he1 : b1 / 4 * 4 + (b1 % 4 * 16 + b2 / 16) / 16 = b1 := by omega
    have he2 : (b1 % 4 * 16 + b2 / 16) % 16 * 16 + (b2 % 16 * 4 + b3 / 64) / 4 = b2 := by omega
    have he3 : (b2 % 16 * 4 + b3 / 64) % 4 * 64 + b3 % 64 = b3 := by omega
    rw [he1, he2, he3]

theorem splitNl_no_nl (a : Str) (h : '\n' ∉ a) : splitNl a = [a] := by
  induction a with
  | nil => rfl
  | cons c cs ih =>
    simp only [List.mem_cons, not_or] at h
    have hcne : ¬ (c = '\n') := fun hc => h.1 hc.symm
    simp only [splitNl, ih h.2]
    rw [if_neg hcne]

theorem splitNl_append (a b : Str) (h : '\n' ∉ a) :
    splitNl (a ++ '\n' :: b) = a :: splitNl b := by
  induction a with
  | nil => simp [splitNl]
  | cons c cs ih =>
    simp only [List.mem_cons, not_or] at h
    have hcne : ¬ (c = '\n') := fun hc => h.1 hc.symm
    simp only [List.cons_append, splitNl, List.append_eq, ih h.2]
    rw [if_neg hcne]

theorem validCode_toNat (c : Char) : validCode c.toNat := c.valid

theorem bytesStr_strBytes (s : Str) : bytesStr (strBytes s) = some s := by
  unfold bytesStr strBytes
  rw [if_pos ?hv]
  case hv =>
    intro b hb
    obtain ⟨c, _, rfl⟩ := List.mem_map.mp hb
    exact validCode_toNat c
  rw [map_ofNat_toNat]

theorem dhSec_pub (a b : Nat) :
    dhSec (toBytesN 32 a) (curvePubOf b) = toBytesN 32 (a * (b * CURVE_G) % KEY_N) := by
  have h := get_curve_secret_pub a b
  simpa [get_curve_secret] using h

theorem dhSec_comm (a b : Nat) :
    dhSec (toBytesN 32 a) (curvePubOf b) = dhSec (toBytesN 32 b) (curvePubOf a) := by
  rw [dhSec_pub, dhSec_pub, Nat.mul_left_comm]

theorem send_msg_text_eq (t : Str) (pk : Bytes) (osk : Option Bytes) (k salt : Bytes)
    (id seed : Str) (rng : MsgRng) :
    send_msg content_type.TEXT (some t) none pk osk k salt id seed rng
      = some (.ok (next_pfs_key k (encapShared pk rng.e) salt, predictable_mdc_gen seed id,
          msgRecord osk k salt
            (serialize_message (.Text ⟨t, predictable_mdc_gen seed id⟩)) rng)) := rfl

theorem send_msg_voice_eq (d : Bytes) (pk : Bytes) (osk : Option Bytes) (k salt : Bytes)
    (id seed : Str) (rng : MsgRng) :
    send_msg content_type.VOICE none (some d) pk osk k salt id seed rng
      = some (.ok (next_pfs_key k (encapShared pk rng.e) salt, predictable_mdc_gen seed id,
          msgRecord osk k salt
            (serialize_message (.Voice ⟨b64_encode d, predictable_mdc_gen seed id⟩)) rng)) := rfl

theorem send_msg_picture_eq (t : Str) (d : Bytes) (pk : Bytes) (osk : Option Bytes)
    (k salt : Bytes) (id seed : Str) (rng : MsgRng) :
    send_msg content_type.PICTURE (some t) (some d) pk osk k salt id seed rng
      = some (.ok (next_pfs_key k (encapShared pk rng.e) salt, predictable_mdc_gen seed id,
          msgRecord osk k salt
            (serialize_message (.Picture ⟨b64_encode d, t, predictable_mdc_gen seed id⟩)) rng)) := rfl

theorem send_msg_internal_eq (t : Str) (ev : Nat) (d : Bytes) (pk : Bytes) (osk : Option Bytes)
    (k salt : Bytes) (id seed : Str) (rng : MsgRng) (hp : parseU8 t = some ev) :
    send_msg content_type.INTERNAL (some t) (some d) pk osk k salt id seed rng
      = some (.ok (next_pfs_key k (encapShared pk rng.e) salt, predictable_mdc_gen seed id,
          msgRecord osk k salt
            (serialize_message (.Internal ⟨ev, b64_encode d, predictable_mdc_gen seed id⟩)) rng)) := by
  simp only [send_msg, build_message, hp, encrypt_msg_eq]
  norm_num [content_type.INTERNAL, content_type.TEXT]

theorem send_msg_linked_media_eq (t link key : Str) (dls : List Str) (b : Nat) (pk : Bytes)
    (osk : Option Bytes) (k salt : Bytes) (id seed : Str) (rng : MsgRng)
    (hl : rustLines t = link :: key :: dls) :
    send_msg content_type.LINKED_MEDIA (some t) (some [b]) pk osk k salt id seed rng
      = some (.ok (next_pfs_key k (encapShared pk rng.e) salt, predictable_mdc_gen seed id,
          msgRecord osk k salt
            (serialize_message (.LinkedMedia
              ⟨b, link, key, joinDesc dls, predictable_mdc_gen seed id⟩)) rng)) := by
  simp only [send_msg, build_message, hl, encrypt_msg_eq, joinDesc]
  norm_num [content_type.LINKED_MEDIA, content_type.TEXT, content_type.INTERNAL,
    content_type.VOICE, content_type.PICTURE]

theorem expectedWarn_not_fatal (optSk optPk : Option Bytes) (h : Bytes)
    (hm : sigMatch optSk optPk) :
    ¬(expectedWarn optSk optPk h ≠ Warning.NONE ∧ optPk.isSome = true) := by
  rcases hm with rfl | ⟨sk, rfl, rfl⟩
  · simp
  · simp [expectedWarn, sig_verify_sign]

theorem parse_msg_msgRecord (rK : Nat) (optSk optPk : Option Bytes) (k salt : Bytes)
    (m : Message) (rng : MsgRng) (hm : sigMatch optSk optPk) :
    parse_msg (msgRecord optSk k salt (serialize_message m) rng) (toBytesN 32 rK) optPk k salt
      = (match parse_msg_content m with
        | .error err => .error err
        | .ok (content, mdc) =>
          .ok (content, next_pfs_key k (encapShared (kyberPubOf rK) rng.e) salt, mdc)) := by
  simp only [parse_msg, decrypt_msg_msgRecord]
  rw [if_neg (expectedWarn_not_fatal _ _ _ hm)]
  simp only [parse_msg_rest, deserialize_serialize]

/-- Claim C2 (amended): for every message in the canonical slot form of its variant
(Text: text only; Voice: bytes only; Picture: text and bytes; Internal: a parseable event
code and bytes; LinkedMedia: one byte and a text whose lines are link, key and
description), sent with send_msg under pfs key k, the receiver calling parse_msg on the
produced ciphertext with the matching kyber secret key, pfs key and pfs_salt succeeds and
derives the same next pfs key and the same mdc; it recovers the content exactly for
Text, Voice, Picture and LinkedMedia, while for Internal it recovers the event_data
still base64-encoded in the text slot with an empty bytes slot. -/
theorem claim_C2_msg_roundtrip :
    (∀ (rK : Nat) (t : Str) (optSk optPk : Option Bytes) (k salt : Bytes) (id seed : Str)
      (rng : MsgRng), sigMatch optSk optPk →
      ∃ ct, send_msg content_type.TEXT (some t) none (kyberPubOf rK) optSk k salt id seed rng
          = some (.ok (next_pfs_key k (encapShared (kyberPubOf rK) rng.e) salt,
              predictable_mdc_gen seed id, ct))
        ∧ parse_msg ct (toBytesN 32 rK) optPk k salt
          = .ok ((content_type.TEXT, some t, none),
              next_pfs_key k (encapShared (kyberPubOf rK) rng.e) salt,
              predictable_mdc_gen seed id))
    ∧ (∀ (rK : Nat) (d : Bytes) (optSk optPk : Option Bytes) (k salt : Bytes) (id seed : Str)
      (rng : MsgRng), allBytes d → sigMatch optSk optPk →
      ∃ ct, send_msg content_type.VOICE none (some d) (kyberPubOf rK) optSk k salt id seed rng
          = some (.ok (next_pfs_key k (encapShared (kyberPubOf rK) rng.e) salt,
              predictable_mdc_gen seed id, ct))
        ∧ parse_msg ct (toBytesN 32 rK) optPk k salt
          = .ok ((content_type.VOICE, none, some d),
              next_pfs_key k (encapShared (kyberPubOf rK) rng.e) salt,
              predictable_mdc_gen seed id))
    ∧ (∀ (rK : Nat) (t : Str) (d : Bytes) (optSk optPk : Option Bytes) (k salt : Bytes)
      (id seed : Str) (rng : MsgRng), allBytes d → sigMatch optSk optPk →
      ∃ ct, send_msg content_type.PICTURE (some t) (some d) (kyberPubOf rK) optSk k salt id seed rng
          = some (.ok (next_pfs_key k (encapShared (kyberPubOf rK) rng.e) salt,
              predictable_mdc_gen seed id, ct))
        ∧ parse_msg ct (toBytesN 32 rK) optPk k salt
          = .ok ((content_type.PICTURE, some t, some d),
              next_pfs_key k (encapShared (kyberPubOf rK) rng.e) salt,
              predictable_mdc_gen seed id))
    ∧ (∀ (rK : Nat) (t : Str) (ev : Nat) (d : Bytes) (optSk optPk : Option Bytes)
      (k salt : Bytes) (id seed : Str) (rng : MsgRng),
      parseU8 t = some ev → sigMatch optSk optPk →
      ∃ ct, send_msg content_type.INTERNAL (some t) (some d) (kyberPubOf rK) optSk k salt id seed rng
          = some (.ok (next_pfs_key k (encapShared (kyberPubOf rK) rng.e) salt,
              predictable_mdc_gen seed id, ct))
        ∧ parse_msg ct (toBytesN 32 rK) optPk k salt
          = .ok ((content_type.INTERNAL, some (b64_encode d), none),
              next_pfs_key k (encapShared (kyberPubOf rK) rng.e) salt,
              predictable_mdc_gen seed id))
    ∧ (∀ (rK : Nat) (t link key : Str) (dls : List Str) (b : Nat) (optSk optPk : Option Bytes)
      (k salt : Bytes) (id seed : Str) (rng : MsgRng),
      rustLines t = link :: key :: dls →
      link ++ '\n' :: key ++ '\n' :: joinDesc dls = t →
      sigMatch optSk optPk →
      ∃ ct, send_msg content_type.LINKED_MEDIA (some t) (some [b]) (kyberPubOf rK) optSk k salt id seed rng
          = some (.ok (next_pfs_key k (encapShared (kyberPubOf rK) rng.e) salt,
              predictable_mdc_gen seed id, ct))
        ∧ parse_msg ct (toBytesN 32 rK) optPk k salt
          = .ok ((content_type.LINKED_MEDIA, some t, some [b]),
              next_pfs_key k (encapShared (kyberPubOf rK) rng.e) salt,
              predictable_mdc_gen seed id)) := by
  refine ⟨?_, ?_, ?_, ?_, ?_⟩
  · intro rK t optSk optPk k salt id seed rng hm
    refine ⟨_, send_msg_text_eq t (kyberPubOf rK) optSk k salt id seed rng, ?_⟩
    rw [parse_msg_msgRecord rK optSk optPk k salt _ rng hm]
    rfl
  · intro rK d optSk optPk k salt id seed rng hd hm
    refine ⟨_, send_msg_voice_eq d (kyberPubOf rK) optSk k salt id seed rng, ?_⟩
    rw [parse_msg_msgRecord rK optSk optPk k salt _ rng hm]
    simp only [parse_msg_content, b64_decode_encode d hd]
  · intro rK t d optSk optPk k salt id seed rng hd hm
    refine ⟨_, send_msg_picture_eq t d (kyberPubOf rK) optSk k salt id seed rng, ?_⟩
    rw [parse_msg_msgRecord rK optSk optPk k salt _ rng hm]
    simp only [parse_msg_content, b64_decode_encode d hd]
  · intro rK t ev d optSk optPk k salt id seed rng hp hm
    refine ⟨_, send_msg_internal_eq t ev d (kyberPubOf rK) optSk k salt id seed rng hp, ?_⟩
    rw [parse_msg_msgRecord rK optSk optPk k salt _ rng hm]
    rfl
  · intro rK t link key dls b optSk optPk k salt id seed rng hl ht hm
    refine ⟨_, send_msg_linked_media_eq t link key dls b (kyberPubOf rK) optSk k salt id seed rng hl, ?_⟩
    rw [parse_msg_msgRecord rK optSk optPk k salt _ rng hm]
    have htx : link ++ str ("\n") ++ key ++ str ("\n") ++ joinDesc dls = t := by
      simpa [str, List.append_assoc] using ht
    simp only [parse_msg_content, htx]

/-- Claim C2 counterexample: an Internal message is not recovered exactly as given to
send_msg; the receiver gets the base64 text of the bytes in the text slot and an empty
bytes slot instead of the original event code and bytes. -/
theorem claim_C2_counterexample :
    ∃ ct nk mdc,
      send_msg content_type.INTERNAL (some (str ("7"))) (some [1]) (kyberPubOf 3) none
          [] [] [] [] ⟨1, 2⟩
        = some (.ok (nk, mdc, ct))
      ∧ parse_msg ct (toBytesN 32 3) none [] []
        = .ok ((content_type.INTERNAL, some (b64_encode [1]), none), nk, mdc)
      ∧ some (b64_encode [1]) ≠ some (str ("7"))
      ∧ (none : Option Bytes) ≠ some [1] := by
  refine ⟨_, _, _,
    send_msg_internal_eq (str ("7")) 7 [1] (kyberPubOf 3) none [] [] [] [] ⟨1, 2⟩ (by decide),
    ?_, by decide, by decide⟩
  rw [parse_msg_msgRecord 3 none none [] [] _ ⟨1, 2⟩ (Or.inl rfl)]
  rfl

/-- Claim C2 witness: the voice round trip at a concrete input. -/
theorem claim_C2_witness :
    allBytes [1, 3, 5, 7, 9, 42]
    ∧ sigMatch (some (toBytesN 32 4)) (some (sigPubOf (toBytesN 32 4)))
    ∧ (∃ ct, send_msg content_type.VOICE none (some [1, 3, 5, 7, 9, 42]) (kyberPubOf 3)
          (some (toBytesN 32 4)) [9] [8] (str ("id")) (str ("seed")) ⟨1, 2⟩
        = some (.ok (next_pfs_key [9] (encapShared (kyberPubOf 3) 1) [8],
            predictable_mdc_gen (str ("seed")) (str ("id")), ct))
      ∧ parse_msg ct (toBytesN 32 3) (some (sigPubOf (toBytesN 32 4))) [9] [8]
        = .ok ((content_type.VOICE, none, some [1, 3, 5, 7, 9, 42]),
            next_pfs_key [9] (encapShared (kyberPubOf 3) 1) [8],
            predictable_mdc_gen (str ("seed")) (str ("id")))) :=
  ⟨by decide, Or.inr ⟨toBytesN 32 4, rfl, rfl⟩,
    claim_C2_msg_roundtrip.2.1 3 [1, 3, 5, 7, 9, 42] (some (toBytesN 32 4))
      (some (sigPubOf (toBytesN 32 4))) [9] [8] (str ("id")) (str ("seed")) ⟨1, 2⟩
      (by decide) (Or.inr ⟨toBytesN 32 4, rfl, rfl⟩)⟩

theorem length_next_pfs_key (k sh salt : Bytes) :
    (next_pfs_key k sh salt).length = 9 + salt.length + k.length + sh.length := by
  have h7 : ratchetInfo.length = 7 := by decide
  simp only [next_pfs_key, kdf, lenPre, List.length_append, List.length_cons, h7]
  omega

/-- Claim C4 (amended): two consecutive send_msg calls on the same conversation, the
second using the pfs key returned by the first, strictly advance the per-message pfs
keys (the two returned keys differ from each other and from the starting key), and the
two returned MDCs are equal, both being the deterministic predictable mdc of the
unchanged id and mdc seed. -/
theorem claim_C4_ratchet_advance (t1 t2 : Str) (pk1 pk2 : Bytes)
    (osk1 osk2 : Option Bytes) (k0 salt : Bytes) (id seed : Str) (rng1 rng2 : MsgRng)
    (k1 k2 c1 c2 : Bytes) (m1 m2 : Str)
    (h1 : send_msg content_type.TEXT (some t1) none pk1 osk1 k0 salt id seed rng1
      = some (.ok (k1, m1, c1)))
    (h2 : send_msg content_type.TEXT (some t2) none pk2 osk2 k1 salt id seed rng2
      = some (.ok (k2, m2, c2))) :
    k1 ≠ k0 ∧ k2 ≠ k1 ∧ k2 ≠ k0 ∧ m1 = m2 ∧ m1 = predictable_mdc_gen seed id := by
  rw [send_msg_text_eq] at h1 h2
  simp only [Option.some.injEq, Except.ok.injEq, Prod.mk.injEq] at h1 h2
  obtain ⟨hk1, hm1, _⟩ := h1
  obtain ⟨hk2, hm2, _⟩ := h2
  have L1 : k0.length < k1.length := by
    rw [← hk1, length_next_pfs_key]
    omega
  have L2 : k1.length < k2.length := by
    rw [← hk2, length_next_pfs_key]
    omega
  refine ⟨?_, ?_, ?_, ?_, ?_⟩
  · exact fun h => Nat.ne_of_gt L1 (congrArg List.length h)
  · exact fun h => Nat.ne_of_gt L2 (congrArg List.length h)
  · exact fun h => Nat.ne_of_gt (Nat.lt_trans L1 L2) (congrArg List.length h)
  · rw [← hm1, ← hm2]
  · rw [← hm1]

/-- Claim C4 counterexample: two consecutive send_msg calls with the same id and mdc
seed return the same MDC value, not different ones. -/
theorem claim_C4_counterexample :
    ∃ k1 c1 k2 c2 m,
      send_msg content_type.TEXT (some (str ("Hi Bob"))) none [] none [] []
          (str ("id")) (str ("seed")) ⟨0, 0⟩
        = some (.ok (k1, m, c1))
      ∧ send_msg content_type.TEXT (some (str ("How are you?"))) none [] none k1 []
          (str ("id")) (str ("seed")) ⟨0, 0⟩
        = some (.ok (k2, m, c2)) :=
  ⟨_, _, _, _, _, send_msg_text_eq (str ("Hi Bob")) [] none [] [] (str ("id")) (str ("seed")) ⟨0, 0⟩,
    send_msg_text_eq (str ("How are you?")) [] none _ [] (str ("id")) (str ("seed")) ⟨0, 0⟩⟩

/-- Claim C4 witness: the amended claim applied at a concrete pair of sends. -/
theorem claim_C4_witness :
    ∃ k1 m1 c1 k2 m2 c2,
      send_msg content_type.TEXT (some (str ("Hi Bob"))) none [7] none [] [3]
          (str ("id")) (str ("seed")) ⟨0, 0⟩
        = some (.ok (k1, m1, c1))
      ∧ send_msg content_type.TEXT (some (str ("How are you?"))) none [7] none k1 [3]
          (str ("id")) (str ("seed")) ⟨0, 0⟩
        = some (.ok (k2, m2, c2))
      ∧ (k1 ≠ [] ∧ k2 ≠ k1 ∧ k2 ≠ [] ∧ m1 = m2 ∧ m1 = predictable_mdc_gen (str ("seed")) (str ("id"))) :=
  ⟨_, _, _, _, _, _,
    send_msg_text_eq (str ("Hi Bob")) [7] none [] [3] (str ("id")) (str ("seed")) ⟨0, 0⟩,
    send_msg_text_eq (str ("How are you?")) [7] none _ [3] (str ("id")) (str ("seed")) ⟨0, 0⟩,
    claim_C4_ratchet_advance (str ("Hi Bob")) (str ("How are you?")) [7] [7] none none [] [3]
      (str ("id")) (str ("seed")) ⟨0, 0⟩ ⟨0, 0⟩ _ _ _ _ _ _
      (send_msg_text_eq (str ("Hi Bob")) [7] none [] [3] (str ("id")) (str ("seed")) ⟨0, 0⟩)
      (send_msg_text_eq (str ("How are you?")) [7] none _ [3] (str ("id")) (str ("seed")) ⟨0, 0⟩)⟩

/-- Claim C3: whenever a remote signature public key is supplied and the decrypt step
reports any non-NONE signature warning, parse_msg and parse_init_response fail with the
CRITICAL signature error; when no signature public key is supplied, the warning never
aborts parsing and both functions continue with the decrypted content. -/
theorem claim_C3_signature_fatal :
    (∀ (ct sk pk k salt c k' : Bytes) (w : Warning),
      decrypt_msg sk (some pk) k salt ct = .ok (c, k', w) → w ≠ Warning.NONE →
      parse_msg ct sk (some pk) k salt = .error (dawnErr critSigMsg)
      ∧ parse_init_response ct sk (some pk) k salt = .error (dawnErr critSigMsg))
    ∧ (∀ (ct sk k salt c k' : Bytes) (w : Warning),
      decrypt_msg sk none k salt ct = .ok (c, k', w) →
      parse_msg ct sk none k salt = parse_msg_rest c k'
      ∧ parse_init_response ct sk none k salt = parse_init_response_rest c k') := by
  constructor
  · intro ct sk pk k salt c k' w hdec hw
    constructor
    · simp only [parse_msg, hdec]
      rw [if_pos ⟨hw, rfl⟩]
    · simp only [parse_init_response, hdec]
      rw [if_pos ⟨hw, rfl⟩]
  · intro ct sk k salt c k' w hdec
    constructor
    · simp only [parse_msg, hdec]
      rw [if_neg (by simp)]
    · simp only [parse_init_response, hdec]
      rw [if_neg (by simp)]

/-- Claim C3 witness: an unsigned record decrypted with a required verification key
yields the SIGNATURE_ABSENT warning and both parsers fail; without a verification key
the same record is parsed on. -/
theorem claim_C3_witness :
    ∃ c k' : Bytes,
      decrypt_msg (toBytesN 32 2) (some [5]) [] []
          (msgRecord none [] [] (serialize_message (.Text ⟨str ("hi"), str ("m")⟩)) ⟨0, 1⟩)
        = .ok (c, k', Warning.SIGNATURE_ABSENT)
      ∧ Warning.SIGNATURE_ABSENT ≠ Warning.NONE
      ∧ parse_msg (msgRecord none [] [] (serialize_message (.Text ⟨str ("hi"), str ("m")⟩)) ⟨0, 1⟩)
          (toBytesN 32 2) (some [5]) [] [] = .error (dawnErr critSigMsg)
      ∧ parse_init_response (msgRecord none [] [] (serialize_message (.Text ⟨str ("hi"), str ("m")⟩)) ⟨0, 1⟩)
          (toBytesN 32 2) (some [5]) [] [] = .error (dawnErr critSigMsg)
      ∧ decrypt_msg (toBytesN 32 2) none [] []
          (msgRecord none [] [] (serialize_message (.Text ⟨str ("hi"), str ("m")⟩)) ⟨0, 1⟩)
        = .ok (c, k', Warning.SIGNATURE_ABSENT)
      ∧ parse_msg (msgRecord none [] [] (serialize_message (.Text ⟨str ("hi"), str ("m")⟩)) ⟨0, 1⟩)
          (toBytesN 32 2) none [] [] = parse_msg_rest c k' := by
  refine ⟨serialize_message (.Text ⟨str ("hi"), str ("m")⟩),
    next_pfs_key [] (encapShared (kyberPubOf 2) 0) [], ?_, by decide, ?_, ?_, ?_, ?_⟩
  · exact decrypt_msg_msgRecord 2 none (some [5]) [] [] _ ⟨0, 1⟩
  · exact (claim_C3_signature_fatal.1 _ _ _ _ _ _ _ _
      (decrypt_msg_msgRecord 2 none (some [5]) [] [] _ ⟨0, 1⟩) (by decide)).1
  · exact (claim_C3_signature_fatal.1 _ _ _ _ _ _ _ _
      (decrypt_msg_msgRecord 2 none (some [5]) [] [] _ ⟨0, 1⟩) (by decide)).2
  · exact decrypt_msg_msgRecord 2 none none [] [] _ ⟨0, 1⟩
  · exact (claim_C3_signature_fatal.2 _ _ _ _ _ _ _
      (decrypt_msg_msgRecord 2 none none [] [] _ ⟨0, 1⟩)).1

/-- Claim C6: at the failing input, the LinkedMedia branch of send_msg panics (modelled
as none) on an empty text slot instead of returning a BadInput error, while the
neighbouring violation of a missing media key line is a proper error. -/
theorem claim_C6_send_msg_panic :
    send_msg content_type.LINKED_MEDIA (some []) (some [42]) [] none [] []
        (str ("id")) (str ("seed")) ⟨0, 0⟩ = none
    ∧ send_msg content_type.LINKED_MEDIA (some (str ("link"))) (some [42]) [] none [] []
        (str ("id")) (str ("seed")) ⟨0, 0⟩
      = some (.error (dawnErr (str ("no media key was provided")))) := by
  constructor
  · rfl
  · rfl

theorem build_message_mdcOf (mt : Nat) (t : Option Str) (d : Option Bytes) (mdc : Str)
    (m : Message) (hb : build_message mt t d mdc = some (.ok m)) : m.mdcOf = mdc := by
  unfold build_message at hb
  repeat' split at hb
  all_goals simp_all [Message.mdcOf]
  all_goals subst hb
  all_goals rfl

theorem accept_init_request_eq (ps ss pk k salt : Bytes) (id seed : Str) (kyberR : Nat)
    (rng : MsgRng) :
    accept_init_request ps ss pk k salt id seed kyberR rng
      = .ok (next_pfs_key k (encapShared pk rng.e) salt, kyber_keygen kyberR,
          predictable_mdc_gen seed id,
          msgRecord (some ss) k salt
            (serialize_message (.InitAccept
              ⟨hex_encode (kyber_keygen kyberR).1, hex_encode ps,
                predictable_mdc_gen seed id⟩)) rng) := rfl

/-- Claim C5: whenever send_msg or accept_init_request succeeds, the mdc field embedded
inside the serialized plaintext variant that was encrypted equals the MDC string
returned to the caller, for every variant that can be constructed. -/
theorem claim_C5_mdc_consistency :
    (∀ (mt : Nat) (mtext : Option Str) (mdata : Option Bytes) (pk : Bytes)
      (osk : Option Bytes) (k salt : Bytes) (id seed : Str) (rng : MsgRng)
      (nk ct : Bytes) (mdcOut : Str),
      send_msg mt mtext mdata pk osk k salt id seed rng = some (.ok (nk, mdcOut, ct)) →
      mdcOut = predictable_mdc_gen seed id
      ∧ ∃ m, build_message mt mtext mdata (predictable_mdc_gen seed id) = some (.ok m)
        ∧ m.mdcOf = mdcOut
        ∧ encrypt_msg pk osk k salt (serialize_message m) rng = .ok (ct, nk))
    ∧ (∀ (ps ss pkK k salt : Bytes) (id seed : Str) (kyberR : Nat) (rng : MsgRng)
      (nk : Bytes) (kp : Bytes × Bytes) (mdcOut : Str) (ct : Bytes),
      accept_init_request ps ss pkK k salt id seed kyberR rng = .ok (nk, kp, mdcOut, ct) →
      mdcOut = predictable_mdc_gen seed id
      ∧ ∃ m, m = Message.InitAccept
            ⟨hex_encode (kyber_keygen kyberR).1, hex_encode ps, mdcOut⟩
        ∧ m.mdcOf = mdcOut
        ∧ encrypt_msg pkK (some ss) k salt (serialize_message m) rng = .ok (ct, nk)) := by
  constructor
  · intro mt mtext mdata pk osk k salt id seed rng nk ct mdcOut h
    rcases hb : build_message mt mtext mdata (predictable_mdc_gen seed id)
      with _ | e | m
    · simp [send_msg, hb] at h
    · simp [send_msg, hb] at h
    · simp only [send_msg, hb, encrypt_msg_eq] at h
      simp only [Option.some.injEq, Except.ok.injEq, Prod.mk.injEq] at h
      obtain ⟨hnk, hmdc, hct⟩ := h
      refine ⟨hmdc.symm, m, rfl, ?_, ?_⟩
      · rw [build_message_mdcOf mt mtext mdata _ m hb, hmdc]
      · rw [encrypt_msg_eq, hct, hnk]
  · intro ps ss pkK k salt id seed kyberR rng nk kp mdcOut ct h
    rw [accept_init_request_eq] at h
    simp only [Except.ok.injEq, Prod.mk.injEq] at h
    obtain ⟨hnk, hkp, hmdc, hct⟩ := h
    refine ⟨hmdc.symm, _, rfl, ?_, ?_⟩
    · rfl
    · rw [encrypt_msg_eq, ← hmdc, hct, hnk]

/-- Claim C5 witness: the property at one concrete send_msg call and one concrete
accept_init_request call. -/
theorem claim_C5_witness :
    (∃ nk ct : Bytes,
      send_msg content_type.TEXT (some (str ("hello"))) none [4] none [] [] (str ("i")) (str ("s")) ⟨0, 1⟩
        = some (.ok (nk, predictable_mdc_gen (str ("s")) (str ("i")), ct))
      ∧ (predictable_mdc_gen (str ("s")) (str ("i")) = predictable_mdc_gen (str ("s")) (str ("i"))
        ∧ ∃ m, build_message content_type.TEXT (some (str ("hello"))) none
              (predictable_mdc_gen (str ("s")) (str ("i"))) = some (.ok m)
          ∧ m.mdcOf = predictable_mdc_gen (str ("s")) (str ("i"))
          ∧ encrypt_msg [4] none [] [] (serialize_message m) ⟨0, 1⟩ = .ok (ct, nk)))
    ∧ (∃ nk ct : Bytes, ∃ kp : Bytes × Bytes,
      accept_init_request [2] [3] [4] [] [] (str ("i")) (str ("s")) 5 ⟨0, 1⟩
        = .ok (nk, kp, predictable_mdc_gen (str ("s")) (str ("i")), ct)
      ∧ (predictable_mdc_gen (str ("s")) (str ("i")) = predictable_mdc_gen (str ("s")) (str ("i"))
        ∧ ∃ m, m = Message.InitAccept
              ⟨hex_encode (kyber_keygen 5).1, hex_encode [2], predictable_mdc_gen (str ("s")) (str ("i"))⟩
          ∧ m.mdcOf = predictable_mdc_gen (str ("s")) (str ("i"))
          ∧ encrypt_msg [4] (some [3]) [] [] (serialize_message m) ⟨0, 1⟩ = .ok (ct, nk))) := by
  constructor
  · refine ⟨_, _, send_msg_text_eq (str ("hello")) [4] none [] [] (str ("i")) (str ("s")) ⟨0, 1⟩, ?_⟩
    exact claim_C5_mdc_consistency.1 content_type.TEXT (some (str ("hello"))) none [4] none
      [] [] (str ("i")) (str ("s")) ⟨0, 1⟩ _ _ _
      (send_msg_text_eq (str ("hello")) [4] none [] [] (str ("i")) (str ("s")) ⟨0, 1⟩)
  · refine ⟨_, _, _, accept_init_request_eq [2] [3] [4] [] [] (str ("i")) (str ("s")) 5 ⟨0, 1⟩, ?_⟩
    exact claim_C5_mdc_consistency.2 [2] [3] [4] [] [] (str ("i")) (str ("s")) 5 ⟨0, 1⟩ _ _ _ _
      (accept_init_request_eq [2] [3] [4] [] [] (str ("i")) (str ("s")) 5 ⟨0, 1⟩)

/-- Claim C10: send_msg for INTERNAL takes the event code in the text slot and
base64-encodes the raw bytes into event_data, while a successful parse_msg of an
Internal plaintext returns content type INTERNAL with the event_data string exactly as
carried (still base64-encoded) in the text slot, an empty bytes slot, and the event
code discarded. -/
theorem claim_C10_internal_asymmetry :
    (∀ (t : Str) (ev : Nat) (d : Bytes) (mdc : Str), parseU8 t = some ev →
      build_message content_type.INTERNAL (some t) (some d) mdc
        = some (.ok (.Internal ⟨ev, b64_encode d, mdc⟩)))
    ∧ (∀ (ct sk k salt c k' : Bytes) (optPk : Option Bytes) (w : Warning)
      (im : InternalMessage),
      decrypt_msg sk optPk k salt ct = .ok (c, k', w) →
      ¬(w ≠ Warning.NONE ∧ optPk.isSome = true) →
      deserialize_message c = some (.Internal im) →
      parse_msg ct sk optPk k salt
        = .ok ((content_type.INTERNAL, some im.event_data, none), k', im.mdc)) := by
  constructor
  · intro t ev d mdc hp
    simp only [build_message, hp]
    norm_num [content_type.INTERNAL, content_type.TEXT]
  · intro ct sk k salt c k' optPk w im hdec hw hdes
    simp only [parse_msg, hdec]
    rw [if_neg hw]
    simp only [parse_msg_rest, hdes]
    rfl

/-- Claim C10 witness: the asymmetry at one concrete Internal message. -/
theorem claim_C10_witness :
    parseU8 (str ("7")) = some 7
    ∧ build_message content_type.INTERNAL (some (str ("7"))) (some [1]) (str ("m"))
      = some (.ok (.Internal ⟨7, b64_encode [1], str ("m")⟩))
    ∧ parse_msg (msgRecord none [] [] (serialize_message
          (.Internal ⟨7, str ("x"), str ("m")⟩)) ⟨0, 1⟩) (toBytesN 32 2) none [] []
      = .ok ((content_type.INTERNAL, some (str ("x")), none),
          next_pfs_key [] (encapShared (kyberPubOf 2) 0) [], str ("m")) := by
  refine ⟨by decide, claim_C10_internal_asymmetry.1 (str ("7")) 7 [1] (str ("m")) (by decide), ?_⟩
  exact claim_C10_internal_asymmetry.2 _ _ _ _ _ _ none _ ⟨7, str ("x"), str ("m")⟩
    (decrypt_msg_msgRecord 2 none none [] [] _ ⟨0, 1⟩) (by decide)
    (deserialize_serialize _)

theorem decrypt_msg_error_cases (sk : Bytes) (optPk : Option Bytes) (k salt ct : Bytes)
    (e : Str) (h : decrypt_msg sk optPk k salt ct = .error e) :
    e = dcErrShort ∨ e = dcErrDecrypt ∨ e = dcErrMalformed := by
  unfold decrypt_msg at h
  simp only [decrypt_kyber_secret] at h
  repeat' split at h
  all_goals simp_all

theorem parse_init_request_tail_ne_short (mc nk isalt psalt sk3 : Bytes) :
    parse_init_request_tail mc nk isalt psalt sk3
      ≠ .error (dawnErr (str ("request was too short!"))) := by
  intro h
  unfold parse_init_request_tail at h
  simp only [get_curve_secret] at h
  repeat' split at h
  all_goals first
    | exact Except.noConfusion h
    | (injection h with h2; revert h2; decide)

theorem parse_init_request_rest_ne_short (a b c d s1 s2 s3 s4 s5 : Bytes) :
    parse_init_request_rest a b c d s1 s2 s3 s4 s5
      ≠ .error (dawnErr (str ("request was too short!"))) := by
  intro h
  unfold parse_init_request_rest at h
  simp only [get_curve_secret, decrypt_kyber_secret, derive_salts] at h
  split at h
  · rename_i err heq
    rcases decrypt_msg_error_cases _ _ _ _ _ _ heq with rfl | rfl | rfl <;>
      (injection h with h2; revert h2; decide)
  · exact parse_init_request_tail_ne_short _ _ _ _ _ h

/-- Claim C7: parse_init_request returns the too-short error exactly when the input
length is at most 64 + 1568 bytes; for longer inputs it splits the frame at offsets 32,
64 and 64 + 1568 and hands the four parts to the rest of the parser, and the result is
then never the too-short error. -/
theorem claim_C7_frame_split (body s1 s2 s3 s4 s5 : Bytes) :
    (body.length ≤ 32 * 2 + 1568 →
      parse_init_request body s1 s2 s3 s4 s5
        = .error (dawnErr (str ("request was too short!"))))
    ∧ (32 * 2 + 1568 < body.length →
      parse_init_request body s1 s2 s3 s4 s5
        = parse_init_request_rest (body.take 32) ((body.drop 32).take 32)
            ((body.drop 64).take 1568) (body.drop 1632) s1 s2 s3 s4 s5
      ∧ parse_init_request body s1 s2 s3 s4 s5
        ≠ .error (dawnErr (str ("request was too short!")))) := by
  constructor
  · intro hlen
    unfold parse_init_request
    rw [if_pos hlen]
  · intro hlen
    have hsplit : parse_init_request body s1 s2 s3 s4 s5
        = parse_init_request_rest (body.take 32) ((body.drop 32).take 32)
            ((body.drop 64).take 1568) (body.drop 1632) s1 s2 s3 s4 s5 := by
      unfold parse_init_request
      rw [if_neg (by omega)]
    refine ⟨hsplit, ?_⟩
    rw [hsplit]
    exact parse_init_request_rest_ne_short _ _ _ _ _ _ _ _ _

/-- Claim C7 witness: the too-short branch at an input of the boundary length and the
split branch at an input one byte longer. -/
theorem claim_C7_witness :
    ((List.replicate 1632 0 : Bytes).length ≤ 32 * 2 + 1568
      ∧ parse_init_request (List.replicate 1632 0) [] [] [] [] []
        = .error (dawnErr (str ("request was too short!"))))
    ∧ (32 * 2 + 1568 < (List.replicate 1633 0 : Bytes).length
      ∧ parse_init_request (List.replicate 1633 0) [] [] [] [] []
        = parse_init_request_rest ((List.replicate 1633 0 : Bytes).take 32)
            (((List.replicate 1633 0 : Bytes).drop 32).take 32)
            (((List.replicate 1633 0 : Bytes).drop 64).take 1568)
            ((List.replicate 1633 0 : Bytes).drop 1632) [] [] [] [] []) := by
  have h1 : (List.replicate 1632 0 : Bytes).length = 1632 := List.length_replicate _ _
  have h2 : (List.replicate 1633 0 : Bytes).length = 1633 := List.length_replicate _ _
  refine ⟨⟨by omega, ?_⟩, by omega, ?_⟩
  · exact (claim_C7_frame_split (List.replicate 1632 0) [] [] [] [] []).1 (by omega)
  · exact ((claim_C7_frame_split (List.replicate 1633 0) [] [] [] [] []).2 (by omega)).1

/-- Claim C8: for every well-formed handle input (five byte-string keys, a display name
and an anchor mdc containing no newline), parse_handle applied to gen_handle returns
exactly the input. -/
theorem claim_C8_handle_roundtrip (k1 k2 k3 k4 k5 : Bytes) (name mdc : Str)
    (h1 : allBytes k1) (h2 : allBytes k2) (h3 : allBytes k3) (h4 : allBytes k4)
    (h5 : allBytes k5) (hn : '\n' ∉ name) (hm : '\n' ∉ mdc) :
    parse_handle (gen_handle k1 k2 k3 k4 k5 name mdc)
      = .ok (k1, k2, k3, k4, k5, name, mdc) := by
  have hsplit : splitNl (hex_encode k1 ++ ['\n'] ++ hex_encode k2 ++ ['\n'] ++ hex_encode k3
      ++ ['\n'] ++ hex_encode k4 ++ ['\n'] ++ hex_encode k5 ++ ['\n'] ++ name ++ ['\n'] ++ mdc)
      = [hex_encode k1, hex_encode k2, hex_encode k3, hex_encode k4, hex_encode k5, name, mdc] := by
    simp only [List.append_assoc, List.singleton_append, List.cons_append, List.nil_append]
    rw [splitNl_append _ _ (nl_not_mem_hex_encode k1),
      splitNl_append _ _ (nl_not_mem_hex_encode k2),
      splitNl_append _ _ (nl_not_mem_hex_encode k3),
      splitNl_append _ _ (nl_not_mem_hex_encode k4),
      splitNl_append _ _ (nl_not_mem_hex_encode k5),
      splitNl_append _ _ hn,
      splitNl_no_nl _ hm]
  simp only [gen_handle, parse_handle, bytesStr_strBytes, hsplit,
    hex_decode_encode k1 h1, hex_decode_encode k2 h2, hex_decode_encode k3 h3,
    hex_decode_encode k4 h4, hex_decode_encode k5 h5]

/-- Claim C8 witness: the round trip at the concrete handle of the test suite. -/
theorem claim_C8_witness :
    allBytes [255, 0, 255, 1, 2, 3, 4, 5] ∧ allBytes [5, 5, 6] ∧ allBytes [42, 5, 5, 5]
    ∧ allBytes [42, 42, 0, 0, 0] ∧ allBytes [0, 0, 3, 0]
    ∧ '\n' ∉ str ("Test 42") ∧ '\n' ∉ str ("00ff")
    ∧ parse_handle (gen_handle [255, 0, 255, 1, 2, 3, 4, 5] [5, 5, 6] [42, 5, 5, 5]
        [42, 42, 0, 0, 0] [0, 0, 3, 0] (str ("Test 42")) (str ("00ff")))
      = .ok ([255, 0, 255, 1, 2, 3, 4, 5], [5, 5, 6], [42, 5, 5, 5], [42, 42, 0, 0, 0],
          [0, 0, 3, 0], str ("Test 42"), str ("00ff")) :=
  ⟨by decide, by decide, by decide, by decide, by decide, by decide, by decide,
    claim_C8_handle_roundtrip [255, 0, 255, 1, 2, 3, 4, 5] [5, 5, 6] [42, 5, 5, 5]
      [42, 42, 0, 0, 0] [0, 0, 3, 0] (str ("Test 42")) (str ("00ff"))
      (by decide) (by decide) (by decide) (by decide) (by decide) (by decide) (by decide)⟩

/-- Claim C9 counterexample: an input with eight newline-separated fields, not exactly
seven, is nevertheless parsed successfully; the extra field is ignored. -/
theorem claim_C9_counterexample :
    parse_handle (strBytes (str ("\n\n\n\n\n\n\n")))
      = .ok ([], [], [], [], [], [], [])
    ∧ (splitNl (str ("\n\n\n\n\n\n\n"))).length = 8 := by
  constructor
  · rfl
  · rfl

/-- Claim C9 (amended): parse_handle fails on every input that is not a valid character
sequence and on every input with fewer than seven newline-separated fields; with at
least seven fields it hex-decodes the five leading key fields, failing exactly when one
of them is invalid hex and succeeding otherwise, ignoring any fields beyond the
seventh. -/
theorem claim_C9_parse_handle_validity :
    (∀ l : Bytes, ¬(∀ b ∈ l, validCode b) →
      parse_handle l = .error (dawnErr (str ("handle content is not valid UTF-8!"))))
    ∧ (∀ (l : Bytes) (s : Str), bytesStr l = some s → (splitNl s).length < 7 →
      parse_handle l = .error (dawnErr (str ("handle format invalid!"))))
    ∧ (∀ (l : Bytes) (s : Str) (f1 f2 f3 f4 f5 nm md : Str) (rest : List Str),
      bytesStr l = some s → splitNl s = f1 :: f2 :: f3 :: f4 :: f5 :: nm :: md :: rest →
      parse_handle l
        = (match hex_decode f1, hex_decode f2, hex_decode f3, hex_decode f4, hex_decode f5 with
          | some c1, some c2, some c3, some c4, some c5 => .ok (c1, c2, c3, c4, c5, nm, md)
          | _, _, _, _, _ => .error (dawnErr (str ("handle format invalid!"))))) := by
  refine ⟨?_, ?_, ?_⟩
  · intro l h
    simp only [parse_handle, bytesStr, if_neg h]
  · intro l s hb hlen
    simp only [parse_handle, hb]
    rcases hsp : splitNl s with _ | ⟨f1, _ | ⟨f2, _ | ⟨f3, _ | ⟨f4, _ | ⟨f5, _ | ⟨nm, _ | ⟨md, rest⟩⟩⟩⟩⟩⟩⟩
    · rfl
    · rfl
    · rfl
    · rfl
    · rfl
    · rfl
    · rfl
    · rw [hsp] at hlen
      simp only [List.length_cons] at hlen
      omega
  · intro l s f1 f2 f3 f4 f5 nm md rest hb hsp
    simp only [parse_handle, hb, hsp]

/-- Claim C9 witness: the three amended cases at concrete inputs. -/
theorem claim_C9_witness :
    (¬(∀ b ∈ ([55296] : Bytes), validCode b)
      ∧ parse_handle [55296] = .error (dawnErr (str ("handle content is not valid UTF-8!"))))
    ∧ (bytesStr (strBytes (str ("a\nb"))) = some (str ("a\nb"))
      ∧ (splitNl (str ("a\nb"))).length < 7
      ∧ parse_handle (strBytes (str ("a\nb")))
        = .error (dawnErr (str ("handle format invalid!"))))
    ∧ (bytesStr (strBytes (str ("00\nx\n\n\n\nnm\nmd"))) = some (str ("00\nx\n\n\n\nnm\nmd"))
      ∧ splitNl (str ("00\nx\n\n\n\nnm\nmd"))
        = [str ("00"), str ("x"), [], [], [], str ("nm"), str ("md")]
      ∧ parse_handle (strBytes (str ("00\nx\n\n\n\nnm\nmd")))
        = .error (dawnErr (str ("handle format invalid!")))) := by
  refine ⟨⟨by decide, claim_C9_parse_handle_validity.1 [55296] (by decide)⟩,
    ⟨by decide, by decide,
      claim_C9_parse_handle_validity.2.1 (strBytes (str ("a\nb"))) (str ("a\nb"))
        (by decide) (by decide)⟩,
    ⟨by decide, by decide, ?_⟩⟩
  have h := claim_C9_parse_handle_validity.2.2 (strBytes (str ("00\nx\n\n\n\nnm\nmd")))
    (str ("00\nx\n\n\n\nnm\nmd")) (str ("00")) (str ("x")) [] [] [] (str ("nm")) (str ("md")) []
    (by decide) (by decide)
  rw [h]
  rfl

theorem gen_init_request_eq (rpkK rpkKS rpkC rpkP2 rpkCS own_pubkey_sig own_seckey_sig : Bytes)
    (name comment mdc : Str) (rng : GenRng) (hname : name ≠ []) :
    gen_init_request rpkK rpkKS rpkC rpkP2 rpkCS own_pubkey_sig own_seckey_sig
        name comment mdc rng
      = .ok ((kyberPubOf rng.initR.kyberR, toBytesN 32 rng.initR.kyberR),
          (curvePubOf rng.initR.curveR, toBytesN 32 rng.initR.curveR),
          next_pfs_key (dhSec (toBytesN 32 rng.initR.curveR) rpkC)
            (encapShared rpkK rng.msg.e)
            (pfsSaltOf (dhSec (toBytesN 32 rng.initR.curveSaltR) rpkCS)
              (encapShared rpkKS rng.saltE)),
          dhSec (toBytesN 32 rng.pfs2R) rpkP2,
          pfsSaltOf (dhSec (toBytesN 32 rng.initR.curveSaltR) rpkCS)
            (encapShared rpkKS rng.saltE),
          id_gen rng.initR.idR,
          idSaltOf (dhSec (toBytesN 32 rng.initR.curveSaltR) rpkCS)
            (encapShared rpkKS rng.saltE),
          mdc,
          hex_encode (sym_key_gen rng.mdcSeedR),
          curvePubOf rng.initR.curveR ++ curvePubOf rng.initR.curveSaltR ++ kemCtOf rng.saltE
            ++ msgRecord (some own_seckey_sig)
                (dhSec (toBytesN 32 rng.initR.curveR) rpkC)
                (pfsSaltOf (dhSec (toBytesN 32 rng.initR.curveSaltR) rpkCS)
                  (encapShared rpkKS rng.saltE))
                (serialize_message (.InitRequest
                  ⟨id_gen rng.initR.idR, mdc, hex_encode (kyberPubOf rng.initR.kyberR),
                    hex_encode (curvePubOf rng.pfs2R), hex_encode own_pubkey_sig,
                    name, comment, hex_encode (sym_key_gen rng.mdcSeedR)⟩))
                rng.msg) := by
  unfold gen_init_request
  rw [if_neg hname]
  rfl

set_option maxHeartbeats 800000 in
/-- Claim C1: for every valid handshake (the five remote init public keys matching the
responder's secret keys, a nonempty name, and a signature public key of byte values),
the responder parsing the produced ciphertext recovers exactly the initiator's id,
id salt, anchor mdc, kyber public key, signature public key, mdc seed, name and
comment; the recovered pfs salt equals the initiator's; the initiator's new (send) pfs
key equals the responder's recovered remote pfs key; and the initiator's remote pfs key
equals the responder's own pfs key. -/
theorem claim_C1_handshake_roundtrip (bK bKS bC bP2 bCS : Nat)
    (own_pubkey_sig own_seckey_sig : Bytes) (name comment mdc : Str) (rng : GenRng)
    (hname : name ≠ []) (hsig : allBytes own_pubkey_sig) :
    ∃ kyberKp curveKp newPfs remotePfs pfsSalt id idSalt mdcSeed ct,
      gen_init_request (kyberPubOf bK) (kyberPubOf bKS) (curvePubOf bC) (curvePubOf bP2)
          (curvePubOf bCS) own_pubkey_sig own_seckey_sig name comment mdc rng
        = .ok (kyberKp, curveKp, newPfs, remotePfs, pfsSalt, id, idSalt, mdc, mdcSeed, ct)
      ∧ parse_init_request ct (toBytesN 32 bK) (toBytesN 32 bC) (toBytesN 32 bP2)
          (toBytesN 32 bKS) (toBytesN 32 bCS)
        = .ok (id, idSalt, mdc, kyberKp.1, own_pubkey_sig, remotePfs, newPfs, pfsSalt,
            name, comment, mdcSeed) := by
  refine ⟨_, _, _, _, _, _, _, _, _,
    gen_init_request_eq (kyberPubOf bK) (kyberPubOf bKS) (curvePubOf bC) (curvePubOf bP2)
      (curvePubOf bCS) own_pubkey_sig own_seckey_sig name comment mdc rng hname, ?_⟩
  have hlenA : (curvePubOf rng.initR.curveR).length = 32 := length_toBytesN _ _
  have hlenB : (curvePubOf rng.initR.curveSaltR).length = 32 := length_toBytesN _ _
  have hlenC : (kemCtOf rng.saltE).length = 1568 := length_toBytesN _ _
  have hRpos : 0 < (msgRecord (some own_seckey_sig)
      (dhSec (toBytesN 32 rng.initR.curveR) (curvePubOf bC))
      (pfsSaltOf (dhSec (toBytesN 32 rng.initR.curveSaltR) (curvePubOf bCS))
        (encapShared (kyberPubOf bKS) rng.saltE))
      (serialize_message (.InitRequest
        ⟨id_gen rng.initR.idR, mdc, hex_encode (kyberPubOf rng.initR.kyberR),
          hex_encode (curvePubOf rng.pfs2R), hex_encode own_pubkey_sig,
          name, comment, hex_encode (sym_key_gen rng.mdcSeedR)⟩))
      rng.msg).length := by
    simp [msgRecord, List.length_append, length_toBytesN]
  generalize hR : msgRecord (some own_seckey_sig)
      (dhSec (toBytesN 32 rng.initR.curveR) (curvePubOf bC))
      (pfsSaltOf (dhSec (toBytesN 32 rng.initR.curveSaltR) (curvePubOf bCS))
        (encapShared (kyberPubOf bKS) rng.saltE))
      (serialize_message (.InitRequest
        ⟨id_gen rng.initR.idR, mdc, hex_encode (kyberPubOf rng.initR.kyberR),
          hex_encode (curvePubOf rng.pfs2R), hex_encode own_pubkey_sig,
          name, comment, hex_encode (sym_key_gen rng.mdcSeedR)⟩))
      rng.msg = R at hRpos ⊢
  have hCT : curvePubOf rng.initR.curveR ++ curvePubOf rng.initR.curveSaltR
      ++ kemCtOf rng.saltE ++ R
      = curvePubOf rng.initR.curveR ++ (curvePubOf rng.initR.curveSaltR
        ++ (kemCtOf rng.saltE ++ R)) := by
    simp [List.append_assoc]
  rw [hCT]
  unfold parse_init_request
  rw [if_neg (by
    simp only [List.length_append, hlenA, hlenB, hlenC]
    omega)]
  rw [take_append_len _ _ _ hlenA, drop_append_len _ _ _ hlenA,
    take_append_len _ _ _ hlenB]
  have hd64 : (curvePubOf rng.initR.curveR ++ (curvePubOf rng.initR.curveSaltR
      ++ (kemCtOf rng.saltE ++ R))).drop 64
      = kemCtOf rng.saltE ++ R := by
    rw [← List.append_assoc]
    exact drop_append_len _ _ 64 (by rw [List.length_append, hlenA, hlenB])
  have hd1632 : (curvePubOf rng.initR.curveR ++ (curvePubOf rng.initR.curveSaltR
      ++ (kemCtOf rng.saltE ++ R))).drop 1632 = R := by
    rw [← List.append_assoc, ← List.append_assoc]
    exact drop_append_len _ _ 1632
      (by rw [List.length_append, List.length_append, hlenA, hlenB, hlenC])
  rw [hd64, hd1632, take_append_len _ _ _ hlenC]
  unfold parse_init_request_rest
  simp only [get_curve_secret]
  rw [dhSec_comm bC rng.initR.curveR, dhSec_comm bCS rng.initR.curveSaltR,
    decrypt_kyber_secret_ct bKS rng.saltE]
  simp only [derive_salts]
  rw [← hR, decrypt_msg_msgRecord bK (some own_seckey_sig) none]
  have hk1 : allBytes (kyberPubOf rng.initR.kyberR) := allBytes_toBytesN _ _
  have hk2 : allBytes (curvePubOf rng.pfs2R) := allBytes_toBytesN _ _
  simp only [parse_init_request_tail, deserialize_serialize, hex_decode_encode _ hk1,
    hex_decode_encode _ hk2, hex_decode_encode _ hsig, get_curve_secret]
  rw [dhSec_comm bP2 rng.pfs2R]

/-- Claim C1 witness: the handshake round trip at one concrete choice of bundle
scalars, signature keys, name, comment and randomness. -/
theorem claim_C1_witness :
    (str ("alice")) ≠ [] ∧ allBytes [1, 2, 3]
    ∧ ∃ kyberKp curveKp newPfs remotePfs pfsSalt id idSalt mdcSeed ct,
      gen_init_request (kyberPubOf 1) (kyberPubOf 2) (curvePubOf 3) (curvePubOf 4)
          (curvePubOf 5) [1, 2, 3] [9] (str ("alice")) (str ("hi")) (str ("m"))
          ⟨⟨6, 7, 8, 9, 10⟩, 11, 12, 13, ⟨14, 15⟩⟩
        = .ok (kyberKp, curveKp, newPfs, remotePfs, pfsSalt, id, idSalt, str ("m"),
            mdcSeed, ct)
      ∧ parse_init_request ct (toBytesN 32 1) (toBytesN 32 3) (toBytesN 32 4)
          (toBytesN 32 2) (toBytesN 32 5)
        = .ok (id, idSalt, str ("m"), kyberKp.1, [1, 2, 3], remotePfs, newPfs, pfsSalt,
            str ("alice"), str ("hi"), mdcSeed) :=
  ⟨by decide, by decide,
    claim_C1_handshake_roundtrip 1 2 3 4 5 [1, 2, 3] [9] (str ("alice")) (str ("hi"))
      (str ("m")) ⟨⟨6, 7, 8, 9, 10⟩, 11, 12, 13, ⟨14, 15⟩⟩ (by decide) (by decide)⟩
